import Mathlib

/-!
A shallow embedding of the matchmaking bot's candidate-selection and
session-state engine (`src/index.js`), together with proofs about the
rate limiter, the candidate queue builder, the like/message/skip
actions and the deletion flow.

Conventions of the embedding:
* user identifiers are natural numbers (the store treats profiles whose
  identifier is the falsy value `0` as invalid, mirroring the `!u.id`
  validity checks);
* timestamps are natural-number milliseconds; the JavaScript calendar-day
  truncation `new Date(y, m, d)` becomes truncation to a multiple of
  `msPerDay`;
* the document store is a list of profiles keyed by `id` (the collection
  has a unique index on `id`); `updateOne` with `$set` / `$inc` becomes a
  field update of the matching profile; a missing array field is
  represented by `[]`, a missing numeric field by `0`;
* the ephemeral per-user session object becomes the `Session` structure,
  and the process-wide `sessions` map a list of `(id, Session)` pairs;
* the unbounded retry-by-reentry recursions (`buildCandidateQueue`
  calling itself, `showCandidate` calling itself) take an explicit fuel
  parameter; the fueled-out branches are unreachable in the situations
  the theorems describe.
-/

namespace MatchBot

/-- Milliseconds per calendar day. -/
def msPerDay : Nat := 86400000

/-- Midnight-aligned start of the calendar day containing timestamp `t`
(the embedding of `new Date(y, m, d).getTime()`). -/
def startOfDay (t : Nat) : Nat := t / msPerDay * msPerDay

/-- A persisted user profile: the fields of a `users` collection document
that the candidate engine reads and writes. -/
structure Profile where
  id : Nat
  name : String := ""
  gender : String := ""
  looking : Option String := none
  likes : List Nat := []
  «matches» : List Nat := []
  recentLikes : List Nat := []
  dailySwipes : Nat := 0
  lastSwipeReset : Option Nat := none
  purchasedSwipes : Nat := 0
deriving Repr, DecidableEq

instance : Inhabited Profile := ⟨{ id := 0 }⟩

/-- `usersCollection.findOne({ id })`. -/
def findUser (s : List Profile) (i : Nat) : Option Profile :=
  s.find? (fun p => p.id == i)

/-- `usersCollection.updateOne({ id }, ...)`: update the profile whose
identifier is `i` (a no-op when no such profile exists). -/
def setUser (s : List Profile) (i : Nat) (f : Profile → Profile) : List Profile :=
  s.map (fun p => if p.id = i then f p else p)

/-- Whether `checkAndResetDailySwipes` considers the last reset stale:
no recorded reset, or a reset on a different calendar day than `now`. -/
def resetNeeded (u : Profile) (now : Nat) : Bool :=
  match u.lastSwipeReset with
  | none => true
  | some lr => startOfDay lr != startOfDay now

/-- `checkAndResetDailySwipes(userId)`: if the last reset was not today,
zero the daily counter and stamp the reset with the start of today;
returns the current daily-swipe count together with the updated store. -/
def checkAndResetDailySwipes (s : List Profile) (i now : Nat) : Nat × List Profile :=
  match findUser s i with
  | none => (0, s)
  | some u =>
    if resetNeeded u now then
      (0, setUser s i (fun p => { p with dailySwipes := 0, lastSwipeReset := some (startOfDay now) }))
    else
      (u.dailySwipes, s)

/-- `incrementDailySwipes(userId)`: ensure the daily reset, then atomically
`$inc` the daily counter; returns the updated count and store. -/
def incrementDailySwipes (s : List Profile) (i now : Nat) : Nat × List Profile :=
  let s1 := (checkAndResetDailySwipes s i now).2
  let s2 := setUser s1 i (fun p => { p with dailySwipes := p.dailySwipes + 1 })
  (match findUser s2 i with
   | some u => u.dailySwipes
   | none => 0, s2)

/-- The `{free, purchased, total}` record returned by `getAvailableSwipes`. -/
structure SwipeInfo where
  free : Nat
  purchased : Nat
  total : Nat
deriving Repr, DecidableEq

/-- `getAvailableSwipes(userId)`: free remaining is `max(0, 20 - daily)`
(natural subtraction), total is free plus purchased credits. Returns the
possibly reset store as well. -/
def getAvailableSwipes (s : List Profile) (i now : Nat) : SwipeInfo × List Profile :=
  match findUser s i with
  | none => (⟨0, 0, 0⟩, s)
  | some u =>
    let r := checkAndResetDailySwipes s i now
    let free := 20 - r.1
    (⟨free, u.purchasedSwipes, free + u.purchasedSwipes⟩, r.2)

/-- The `catch` wrapper of `getAvailableSwipes`: a storage failure while
reading (`Except.error`) yields the same zero record as a missing profile. -/
def getAvailableSwipesChecked (store : Except Unit (List Profile)) (i now : Nat) : SwipeInfo :=
  match store with
  | Except.error _ => ⟨0, 0, 0⟩
  | Except.ok s => (getAvailableSwipes s i now).1

/-- `k` successive free-quota swipe consumptions at time `now` (the
`incrementDailySwipes` branch taken by skip/like when no purchased
credits remain). -/
def iterateConsume (s : List Profile) (i now : Nat) : Nat → List Profile
  | 0 => s
  | k + 1 => (incrementDailySwipes (iterateConsume s i now k) i now).2

/-! ### Candidate queue builder -/

/-- The `!u || !u.id` validity check of the queue builder: a profile with
the falsy identifier `0` is skipped. -/
def validUser (u : Profile) : Bool := u.id != 0

/-- The bidirectional gender-preference check of `buildCandidateQueue`:
the requester's `looking` matches the candidate's `gender` and vice
versa. -/
def bidirCompat (me u : Profile) : Bool :=
  ((me.looking == some "men" && u.gender == "male") ||
   (me.looking == some "women" && u.gender == "female")) &&
  ((u.looking == some "men" && me.gender == "male") ||
   (u.looking == some "women" && me.gender == "female"))

/-- The strict eligibility filter: valid, not self, not already shown,
bidirectionally preference-compatible. Previously matched users are not
excluded. -/
def strictFilter (s : List Profile) (meId : Nat) (me : Profile) (shownIds : List Nat) :
    List Profile :=
  s.filter (fun u => validUser u && u.id != meId && !(shownIds.contains u.id) && bidirCompat me u)

/-- The relaxed filter used when no preference-compatible candidate
exists: valid, not self, not already shown. -/
def relaxedFilter (s : List Profile) (meId : Nat) (shownIds : List Nat) : List Profile :=
  s.filter (fun u => validUser u && u.id != meId && !(shownIds.contains u.id))

/-- Insertion step of the ascending-by-identifier sort. -/
def insertById (p : Profile) : List Profile → List Profile
  | [] => [p]
  | q :: r => if p.id ≤ q.id then p :: q :: r else q :: insertById p r

/-- `candidates.sort((a, b) => aId - bId)`: ascending by identifier. -/
def sortById (l : List Profile) : List Profile := l.foldr insertById []

/-- The re-entry of `buildCandidateQueue` after it has reset
`session.shown` to `[]`. With an empty shown-list `shownIds` is `[]` in
either mode, so both `shownIds.length > 0` retry guards are disabled and
the re-entered body is recursion-free: strict filter first, relaxed
filter when that is empty. The `excludeShown` mode of the re-entry no
longer influences the result and is kept only for the call shape. -/
def buildQueueBase (s : List Profile) (meId : Nat) (excludeShown : Bool) :
    Option (List Profile) × List Nat :=
  match findUser s meId with
  | none => (none, [])
  | some me =>
    let strict := strictFilter s meId me []
    if strict.isEmpty then
      (some (sortById (relaxedFilter s meId [])), [])
    else (some (sortById strict), [])

/-- `buildCandidateQueue(userId, excludeShown)`: strict bidirectional
filter; if empty and shown were excluded, clear the shown-list and
re-enter without exclusion; if still empty, drop the preference
requirement; if empty again with shown exclusions, clear the shown-list
and re-enter. Returns the queue (`none` when the requester has no
profile, mirroring the `return null`) together with the possibly reset
session shown-list. -/
def buildCandidateQueue (s : List Profile) (meId : Nat) (shown : List Nat)
    (excludeShown : Bool) : Option (List Profile) × List Nat :=
  match findUser s meId with
  | none => (none, shown)
  | some me =>
    let shownIds := if excludeShown then shown else []
    let strict := strictFilter s meId me shownIds
    if strict.isEmpty && excludeShown && !shownIds.isEmpty then
      buildQueueBase s meId false
    else if strict.isEmpty then
      let cands := relaxedFilter s meId shownIds
      if cands.isEmpty && excludeShown && !shownIds.isEmpty then
        buildQueueBase s meId true
      else (some (sortById cands), shown)
    else (some (sortById strict), shown)

/-! ### Sessions and responses -/

/-- The ephemeral per-user session created by `getSession`. -/
structure Session where
  queue : Option (List Profile) := some []
  shown : List Nat := []
  lastPreference : Option String := none
  step : Option String := none
  messageTargetId : Option Nat := none
  waitingForDeletionReason : Bool := false
deriving Repr, DecidableEq

instance : Inhabited Session := ⟨{}⟩

/-- The user-visible outcome of a handler, abstracted from the transport. -/
inductive Response where
  | createPrompt
  | noUsers
  | noNewPeople
  | purchaseOffer
  | candidate (id : Nat)
  | internalError
  | silent
  | askMessage
  | askReason
  | noProfile
  | deleted
  | messageSent
deriving Repr, DecidableEq

/-- `sessions[userId]` with the lazy default of `getSession`. -/
def getSessionIn (sessions : List (Nat × Session)) (i : Nat) : Session :=
  match sessions.find? (fun e => e.1 == i) with
  | some e => e.2
  | none => {}

/-- Mutating `getSession(userId)`: update the stored session, creating
the default one first when absent. -/
def setSessionIn (sessions : List (Nat × Session)) (i : Nat) (f : Session → Session) :
    List (Nat × Session) :=
  match sessions.find? (fun e => e.1 == i) with
  | some _ => sessions.map (fun e => if e.1 = i then (e.1, f e.2) else e)
  | none => sessions ++ [(i, f {})]

/-- `session.step && session.step.startsWith("waiting_message_")`. -/
def stepWaitingMessage (sess : Session) : Bool :=
  match sess.step with
  | some st => st.startsWith "waiting_message_"
  | none => false

/-! ### Candidate presentation -/

/-- The tail of `showCandidate` after its refill block: the dead-code
safety rebuild, the `queue.shift()` pop, the invalid-target check and
the shown-list mark. `Sum.inr` is a re-entry of `showCandidate`. -/
def popStep (s : List Profile) (sess : Session) (meId : Nat) :
    (Response × Session) ⊕ Session :=
  let sess1 :=
    if (sess.queue.getD []).isEmpty then
      let b := buildCandidateQueue s meId sess.shown true
      { sess with queue := b.1, shown := b.2 }
    else sess
  match sess1.queue.getD [] with
  | [] => Sum.inr sess1
  | t :: rest =>
    let sess2 := { sess1 with queue := some rest }
    if !(validUser t) then
      let b := buildCandidateQueue s meId sess2.shown true
      Sum.inr { sess2 with queue := b.1, shown := b.2 }
    else
      let sess3 :=
        if sess2.shown.contains t.id then sess2
        else { sess2 with shown := sess2.shown ++ [t.id] }
      Sum.inl (Response.candidate t.id, sess3)

/-- `showCandidate(userId)`: profile check, swipe gate, queue refill
with shown-list reset, then pop-and-mark of the front candidate. -/
def showCandidate : Nat → List Profile → Session → Nat → Nat →
    Response × List Profile × Session
  | 0, s, sess, _, _ => (.internalError, s, sess)
  | fuel + 1, s, sess, meId, now =>
    match findUser s meId with
    | none => (.createPrompt, s, sess)
    | some _ =>
      let g := getAvailableSwipes s meId now
      if g.1.total = 0 then (.purchaseOffer, g.2, sess)
      else
        let s1 := g.2
        if (sess.queue.getD []).isEmpty then
          if s1.length > 1 then
            let sessA := if !sess.shown.isEmpty then { sess with shown := [] } else sess
            let b1 := buildCandidateQueue s1 meId sessA.shown true
            let sessB := { sessA with queue := b1.1, shown := b1.2 }
            let sessC :=
              if (sessB.queue.getD []).isEmpty then
                let b2 := buildCandidateQueue s1 meId sessB.shown false
                { sessB with queue := b2.1, shown := b2.2 }
              else sessB
            if (sessC.queue.getD []).isEmpty then (.noNewPeople, s1, sessC)
            else
              match popStep s1 sessC meId with
              | Sum.inl r => (r.1, s1, r.2)
              | Sum.inr sess2 => showCandidate fuel s1 sess2 meId now
          else (.noUsers, s1, sess)
        else
          match popStep s1 sess meId with
          | Sum.inl r => (r.1, s1, r.2)
          | Sum.inr sess2 => showCandidate fuel s1 sess2 meId now

/-- First refill block of `showNext`: rebuild when the queue is empty,
then reset the shown-list and rebuild once more if still empty. -/
def refillA (s : List Profile) (meId : Nat) (sess : Session) : Session :=
  if (sess.queue.getD []).isEmpty then
    let b1 := buildCandidateQueue s meId sess.shown true
    let sessB := { sess with queue := b1.1, shown := b1.2 }
    if (sessB.queue.getD []).isEmpty then
      let b2 := buildCandidateQueue s meId [] true
      { sessB with queue := b2.1, shown := b2.2 }
    else sessB
  else sess

/-- Second refill block of `showNext`: reset the shown-list and rebuild,
then rebuild without excluding shown if still empty. -/
def refillB (s : List Profile) (meId : Nat) (sess : Session) : Session :=
  if (sess.queue.getD []).isEmpty then
    let b1 := buildCandidateQueue s meId [] true
    let sessB := { sess with queue := b1.1, shown := b1.2 }
    if (sessB.queue.getD []).isEmpty then
      let b2 := buildCandidateQueue s meId sessB.shown false
      { sessB with queue := b2.1, shown := b2.2 }
    else sessB
  else sess

/-- `showNext(userId)`: preference-change detection, queue refills,
population check, swipe gate, then `showCandidate`. -/
def showNext (s : List Profile) (sess : Session) (meId now : Nat) :
    Response × List Profile × Session :=
  match findUser s meId with
  | none => (.createPrompt, s, sess)
  | some me =>
    let currentPref := me.looking.getD "men"
    let sess1 :=
      if sess.lastPreference != some currentPref then
        { sess with shown := [], queue := none, lastPreference := some currentPref }
      else sess
    let sess2 := refillA s meId sess1
    if s.length ≤ 1 then (.noUsers, s, sess2)
    else
      let sess3 := refillB s meId sess2
      if (sess3.queue.getD []).isEmpty then (.noNewPeople, s, sess3)
      else
        let g := getAvailableSwipes s meId now
        if g.1.total = 0 then (.purchaseOffer, g.2, sess3)
        else showCandidate 4 g.2 sess3 meId now

/-- `k` successive calls of `showNext` (the repeated candidate
presentation of the `/match` flow), collecting the responses. -/
def presentLoop : Nat → List Profile → Session → Nat → Nat →
    List Response × List Profile × Session
  | 0, s, sess, _, _ => ([], s, sess)
  | k + 1, s, sess, meId, now =>
    let r := showNext s sess meId now
    let rest := presentLoop k r.2.1 r.2.2 meId now
    (r.1 :: rest.1, rest.2)

/-! ### Actions -/

/-- Append `x` to the array unless it is already present (the
`if (!arr.includes(x)) arr.push(x)` dedup idiom). -/
def pushUnless (l : List Nat) (x : Nat) : List Nat :=
  if l.contains x then l else l ++ [x]

/-- The common tail of the like action: clear a pending message step,
rebuild the queue, and re-enter presentation only when the rebuilt queue
is non-empty. -/
def resumeAfterLike (s : List Profile) (sess : Session) (meId now : Nat) :
    Response × List Profile × Session :=
  let sess1 :=
    if stepWaitingMessage sess then { sess with step := none, messageTargetId := none }
    else sess
  let b := buildCandidateQueue s meId sess1.shown true
  let sess2 := { sess1 with queue := b.1, shown := b.2 }
  if (sess2.queue.getD []).isEmpty then (.silent, s, sess2)
  else showCandidate 4 s sess2 meId now

/-- `bot.action(/skip_(.+)/)`: profile check, swipe gate, consumption
preferring purchased credits, then next candidate. -/
def skipAction (s : List Profile) (sess : Session) (meId now : Nat) :
    Response × List Profile × Session :=
  match findUser s meId with
  | none => (.createPrompt, s, sess)
  | some user =>
    let g := getAvailableSwipes s meId now
    if g.1.total = 0 then (.purchaseOffer, g.2, sess)
    else
      let s2 :=
        if user.purchasedSwipes > 0 then
          setUser g.2 meId (fun p => { p with purchasedSwipes := p.purchasedSwipes - 1 })
        else (incrementDailySwipes g.2 meId now).2
      let sess1 :=
        if stepWaitingMessage sess then { sess with step := none, messageTargetId := none }
        else sess
      showCandidate 4 s2 sess1 meId now

/-- `bot.action(/like_(.+)/)`: profile and target checks, swipe gate,
like recording with consumption, mutual-like match detection, then
persistence of both documents and resumption. When the requester likes
their own identifier, `me` and `them` alias the same object in the
source; the aliased branch spells out the resulting single document. -/
def likeAction (s : List Profile) (sess : Session) (meId targetId now : Nat) :
    Response × List Profile × Session :=
  match findUser s meId with
  | none => (.createPrompt, s, sess)
  | some me =>
    match findUser s targetId with
    | none =>
      let b := buildCandidateQueue s meId sess.shown true
      let sess1 := { sess with queue := b.1, shown := b.2 }
      if (sess1.queue.getD []).isEmpty then (.silent, s, sess1)
      else showCandidate 4 s sess1 meId now
    | some them =>
      let g := getAvailableSwipes s meId now
      if g.1.total = 0 then (.purchaseOffer, g.2, sess)
      else
        let s1 := g.2
        let meLikes := pushUnless me.likes targetId
        let updatedPurch :=
          if me.purchasedSwipes > 0 then me.purchasedSwipes - 1 else me.purchasedSwipes
        let s2 := if me.purchasedSwipes > 0 then s1 else (incrementDailySwipes s1 meId now).2
        if targetId = meId then
          let s3 := setUser s2 meId (fun _p =>
            { _p with likes := meLikes, «matches» := pushUnless me.matches targetId,
                      purchasedSwipes := updatedPurch, recentLikes := me.recentLikes })
          resumeAfterLike s3 sess meId now
        else
          let matchFound := them.likes.contains meId
          let meMatches := if matchFound then pushUnless me.matches targetId else me.matches
          let themMatches := if matchFound then pushUnless them.matches meId else them.matches
          let themRecent :=
            if matchFound then them.recentLikes
            else (them.recentLikes.filter (fun v => v != meId)) ++ [meId]
          let s3 := setUser s2 meId (fun _p =>
            { _p with likes := meLikes, «matches» := meMatches, purchasedSwipes := updatedPurch })
          let s4 := setUser s3 targetId (fun _p =>
            { _p with likes := them.likes, «matches» := themMatches, recentLikes := themRecent })
          resumeAfterLike s4 sess meId now

/-- `bot.action(/message_(.+)/)`: profile check, swipe gate, target
check, then arm the `waiting_message_` step without consuming a swipe. -/
def messageButton (s : List Profile) (sess : Session) (meId targetId now : Nat) :
    Response × List Profile × Session :=
  match findUser s meId with
  | none => (.createPrompt, s, sess)
  | some _ =>
    let g := getAvailableSwipes s meId now
    if g.1.total = 0 then (.purchaseOffer, g.2, sess)
    else
      match findUser g.2 targetId with
      | none => showCandidate 4 g.2 sess meId now
      | some _ =>
        (.askMessage, g.2,
          { sess with step := some ("waiting_message_" ++ toString targetId),
                      messageTargetId := some targetId })

/-- The `waiting_message_` branch of the text handler: record the like,
detect a mutual match, persist both documents, and resume presentation
unless the available total is zero. No swipe counter is written. When
the target is the requester, the aliased branch spells out the single
resulting document. -/
def messageSendAction (s : List Profile) (sess : Session) (meId targetId now : Nat) :
    Response × List Profile × Session :=
  match findUser s meId with
  | none => (.createPrompt, s, { sess with step := none })
  | some me =>
    match findUser s targetId with
    | none => showCandidate 4 s { sess with step := none } meId now
    | some them =>
      let meLikes := pushUnless me.likes targetId
      let g := getAvailableSwipes s meId now
      let s1 := g.2
      let sF :=
        if targetId = meId then
          setUser s1 meId (fun _p =>
            { _p with likes := meLikes, «matches» := pushUnless me.matches targetId })
        else
          let matchFound := them.likes.contains meId
          let meMatches := if matchFound then pushUnless me.matches targetId else me.matches
          let s2 := setUser s1 meId (fun _p =>
            { _p with likes := meLikes, «matches» := meMatches })
          if matchFound then
            setUser s2 targetId (fun _p =>
              { _p with likes := them.likes, «matches» := pushUnless them.matches meId })
          else
            setUser s2 targetId (fun _p =>
              { _p with likes := them.likes,
                        recentLikes := (them.recentLikes.filter (fun v => v != meId)) ++ [meId] })
      let sessF := { sess with step := none, messageTargetId := none }
      if g.1.total = 0 then (.messageSent, sF, sessF)
      else
        let b := buildCandidateQueue sF meId sessF.shown true
        let sess2 := { sessF with queue := b.1, shown := b.2 }
        showCandidate 4 sF sess2 meId now

/-! ### Deletion -/

/-- The audit record written before a profile deletion. -/
structure DeletionReason where
  userId : Nat
  userName : String
  reason : String
  timestamp : Nat
deriving Repr, DecidableEq

/-- The purge of a deleted user: remove their identifier from every
other profile's `likes`, `matches` and `recentLikes`, then delete the
user's own document. -/
def purgeUser (s : List Profile) (x : Nat) : List Profile :=
  (s.map (fun p =>
    if p.id = x then p
    else
      { p with likes := p.likes.filter (fun v => v != x),
               «matches» := p.matches.filter (fun v => v != x),
               recentLikes := p.recentLikes.filter (fun v => v != x) })).filter
    (fun p => p.id != x)

/-- `bot.command(["delete", "delet"])`: arm the deletion-reason step on
the requester's session when a profile exists. -/
def deleteCommand (s : List Profile) (sessions : List (Nat × Session)) (meId : Nat) :
    List (Nat × Session) × Response :=
  match findUser s meId with
  | none => (sessions, .noProfile)
  | some _ =>
    (setSessionIn sessions meId (fun sess => { sess with waitingForDeletionReason := true }),
     .askReason)

/-- The deletion-reason branch of the text handler: persist the reason,
purge the requester from all other profiles, delete their document and
discard their session entry entirely. -/
def deletionReasonStep (s : List Profile) (sessions : List (Nat × Session))
    (reasons : List DeletionReason) (meId : Nat) (text : String) (now : Nat) :
    List Profile × List (Nat × Session) × List DeletionReason × Response :=
  match findUser s meId with
  | none =>
    (s, setSessionIn sessions meId (fun sess => { sess with waitingForDeletionReason := false }),
     reasons, .noProfile)
  | some u =>
    let reasons2 := reasons ++ [⟨meId, u.name, text.trim, now⟩]
    (purgeUser s meId, sessions.filter (fun e => e.1 != meId), reasons2, .deleted)

/-! ### Action sequences and invariants -/

/-- One store-mutating action of the matching engine, with the session
it ran under. -/
inductive Act where
  | like (sess : Session) (meId targetId now : Nat)
  | message (sess : Session) (meId targetId now : Nat)
  | deleteProfile (meId : Nat)

/-- The persisted-store effect of one action. -/
def applyAct (s : List Profile) : Act → List Profile
  | .like sess meId targetId now => (likeAction s sess meId targetId now).2.1
  | .message sess meId targetId now => (messageSendAction s sess meId targetId now).2.1
  | .deleteProfile meId =>
    match findUser s meId with
    | none => s
    | some _ => purgeUser s meId

/-- The persisted-store effect of a sequence of actions. -/
def applyActs (s : List Profile) (acts : List Act) : List Profile :=
  acts.foldl applyAct s

/-- Match symmetry of the store: B is in A's `matches` iff A is in
B's `matches`, for all stored profiles A and B. -/
def MatchSym (s : List Profile) : Prop :=
  ∀ p ∈ s, ∀ q ∈ s, (q.id ∈ p.matches ↔ p.id ∈ q.matches)

/-- The unique-index invariant of the `users` collection. -/
def NodupIds (s : List Profile) : Prop := (s.map Profile.id).Nodup

/-- The store invariant carried through every action: unique identifiers
and symmetric matches. -/
def StoreInv (s : List Profile) : Prop := NodupIds s ∧ MatchSym s

/-- Correspondence between a store and a counter-updated version of it:
every profile of the second has a profile of the first with the same
identifier and the same three identifier arrays. -/
def ArraysSim (s s2 : List Profile) : Prop :=
  ∀ p ∈ s2, ∃ p0 ∈ s, p0.id = p.id ∧ p0.likes = p.likes ∧
    p0.matches = p.matches ∧ p0.recentLikes = p.recentLikes

/-! ### Concrete fixtures used by witnesses and counterexamples -/

/-- A man looking for women, 5 free swipes used today (day of epoch 0). -/
def profA : Profile :=
  { id := 1, name := "A", gender := "male", looking := some "women",
    dailySwipes := 5, lastSwipeReset := some 0 }

/-- A woman looking for men. -/
def profB : Profile :=
  { id := 2, name := "B", gender := "female", looking := some "men",
    lastSwipeReset := some 0 }

/-- A second woman looking for men. -/
def profC : Profile :=
  { id := 3, name := "C", gender := "female", looking := some "men",
    lastSwipeReset := some 0 }

/-- A third woman looking for men. -/
def profD : Profile :=
  { id := 4, name := "D", gender := "female", looking := some "men",
    lastSwipeReset := some 0 }

/-- A man who exhausted the free daily quota with no purchased credits. -/
def profLimit : Profile :=
  { id := 1, gender := "male", looking := some "women",
    dailySwipes := 20, lastSwipeReset := some 0 }

/-- A man with purchased credits remaining. -/
def profPurch : Profile :=
  { id := 1, gender := "male", looking := some "women",
    dailySwipes := 3, purchasedSwipes := 5, lastSwipeReset := some 0 }

/-- A man with a completely fresh daily quota. -/
def profFresh : Profile :=
  { id := 1, gender := "male", looking := some "women", lastSwipeReset := some 0 }

/-- A woman whose arrays reference users 1 and 3. -/
def profE : Profile :=
  { id := 5, name := "E", gender := "female", looking := some "men",
    likes := [1, 3], «matches» := [1], recentLikes := [3, 1], lastSwipeReset := some 0 }

/-- The session produced by the preference-change branch of `showNext`:
shown-set and queue cleared, fingerprint set to the current preference. -/
def clearedSession (sess : Session) (pref : String) : Session :=
  { sess with shown := [], queue := none, lastPreference := some pref }

/-- The session state reached after `k` presentations out of a fixed
pool: the ascending-sorted queue with the first `k` candidates popped,
their identifiers marked as shown, and the preference fingerprint set. -/
def loopSession (pool : List Profile) (pref : String) (k : Nat) : Session :=
  { queue := some ((sortById pool).drop k),
    shown := ((sortById pool).map Profile.id).take k,
    lastPreference := some pref }

/-! ## Theorems -/

theorem startOfDay_idem (t : Nat) : startOfDay (startOfDay t) = startOfDay t := by
  unfold startOfDay
  rw [Nat.mul_div_cancel _ (by decide : 0 < msPerDay)]

theorem findUser_setUser_self (s : List Profile) (i : Nat) (f : Profile → Profile)
    (hf : ∀ p, (f p).id = p.id) :
    findUser (setUser s i f) i = (findUser s i).map f := by
  unfold findUser setUser
  induction s with
  | nil => rfl
  | cons p rest ih =>
    by_cases h : p.id = i
    · rw [List.map_cons, if_pos h]
      rw [List.find?_cons_of_pos _ (by simp [hf, h]), List.find?_cons_of_pos _ (by simp [h])]
      rfl
    · rw [List.map_cons, if_neg h]
      rw [List.find?_cons_of_neg _ (by simp [h]), List.find?_cons_of_neg _ (by simp [h])]
      exact ih

theorem findUser_setUser_other (s : List Profile) (i j : Nat) (f : Profile → Profile)
    (hf : ∀ p, (f p).id = p.id) (hij : j ≠ i) :
    findUser (setUser s i f) j = findUser s j := by
  unfold findUser setUser
  induction s with
  | nil => rfl
  | cons p rest ih =>
    by_cases h : p.id = j
    · have hpi : ¬ p.id = i := by
        rw [h]
        exact hij
      rw [List.map_cons, if_neg hpi]
      rw [List.find?_cons_of_pos _ (by simp [h]), List.find?_cons_of_pos _ (by simp [h])]
    · by_cases hpi : p.id = i
      · rw [List.map_cons, if_pos hpi]
        rw [List.find?_cons_of_neg _ (by simp [hf, h]), List.find?_cons_of_neg _ (by simp [h])]
        exact ih
      · rw [List.map_cons, if_neg hpi]
        rw [List.find?_cons_of_neg _ (by simp [h]), List.find?_cons_of_neg _ (by simp [h])]
        exact ih

theorem getAvailableSwipes_sameDay (s : List Profile) (i now : Nat) (u : Profile)
    (hu : findUser s i = some u) (t : Nat) (hr : u.lastSwipeReset = some t)
    (hd : startOfDay t = startOfDay now) :
    getAvailableSwipes s i now =
      (⟨20 - u.dailySwipes, u.purchasedSwipes,
        (20 - u.dailySwipes) + u.purchasedSwipes⟩, s) := by
  unfold getAvailableSwipes checkAndResetDailySwipes
  rw [hu]
  have hneed : resetNeeded u now = false := by
    unfold resetNeeded
    rw [hr]
    simp [hd]
  simp [hneed]

theorem incrementDailySwipes_sameDay (s : List Profile) (i now : Nat) (u : Profile)
    (hu : findUser s i = some u) (t : Nat) (hr : u.lastSwipeReset = some t)
    (hd : startOfDay t = startOfDay now) :
    (incrementDailySwipes s i now).2 =
      setUser s i (fun p => { p with dailySwipes := p.dailySwipes + 1 }) := by
  unfold incrementDailySwipes checkAndResetDailySwipes
  rw [hu]
  have hneed : resetNeeded u now = false := by
    unfold resetNeeded
    rw [hr]
    simp [hd]
  simp [hneed]

/-! ### Claim C10 -/

/-- Claim C10: a user identifier with no stored profile gets
`{free: 0, purchased: 0, total: 0}` from the rate limiter (not the fresh
daily allowance of 20), and the same zero record is returned when the
storage read fails. -/
theorem availableSwipes_no_profile (s : List Profile) (i now : Nat)
    (h : findUser s i = none) :
    (getAvailableSwipes s i now).1 = ⟨0, 0, 0⟩ ∧
      getAvailableSwipesChecked (Except.error ()) i now = ⟨0, 0, 0⟩ := by
  constructor
  · unfold getAvailableSwipes
    rw [h]
  · rfl

/-- Witness for C10: the empty store has no profile for user 5, and the
rate limiter reports a zero allowance for them. -/
theorem availableSwipes_no_profile_witness :
    findUser [] 5 = none ∧
      (getAvailableSwipes [] 5 0).1 = ⟨0, 0, 0⟩ ∧
      getAvailableSwipesChecked (Except.error ()) 5 0 = ⟨0, 0, 0⟩ := by
  refine ⟨rfl, ?_⟩
  have h := availableSwipes_no_profile [] 5 0 rfl
  exact ⟨h.1, h.2⟩

/-! ### Claim C3 -/

theorem iterateConsume_findUser (s : List Profile) (i now : Nat) (u : Profile)
    (hu : findUser s i = some u)
    (hr : u.lastSwipeReset = some (startOfDay now)) :
    ∀ k, findUser (iterateConsume s i now k) i =
      some { u with dailySwipes := u.dailySwipes + k } := by
  intro k
  induction k with
  | zero => simpa using hu
  | succ k ih =>
    have hlast : ({ u with dailySwipes := u.dailySwipes + k } : Profile).lastSwipeReset
        = some (startOfDay now) := hr
    have hstep := incrementDailySwipes_sameDay (iterateConsume s i now k) i now
      { u with dailySwipes := u.dailySwipes + k } ih (startOfDay now) hlast (startOfDay_idem now)
    show findUser (incrementDailySwipes (iterateConsume s i now k) i now).2 i = _
    rw [hstep, findUser_setUser_self (iterateConsume s i now k) i
      (fun p => { p with dailySwipes := p.dailySwipes + 1 }) (fun p => rfl), ih]
    rfl

/-- Claim C3: with zero purchased credits, `getAvailableSwipes` reports
`free = max(0, 20 - dailySwipes)` and `total = free + purchased`; after
exactly 20 free consumptions on one calendar day the total is 0; and the
first consumption after midnight first zeroes the counter and stamps the
reset with the start of the new day, leaving a total of 19. -/
theorem daily_limit_boundary (s : List Profile) (i now : Nat) (u : Profile)
    (hu : findUser s i = some u) (hp : u.purchasedSwipes = 0)
    (hd0 : u.dailySwipes = 0) (hr : u.lastSwipeReset = some (startOfDay now)) :
    (getAvailableSwipes s i now).1.free = 20 - u.dailySwipes ∧
    (getAvailableSwipes s i now).1.total =
      (getAvailableSwipes s i now).1.free + u.purchasedSwipes ∧
    (getAvailableSwipes (iterateConsume s i now 20) i now).1.total = 0 ∧
    (∀ now2, startOfDay now2 ≠ startOfDay now →
      findUser (incrementDailySwipes (iterateConsume s i now 20) i now2).2 i =
        some { u with dailySwipes := 1, lastSwipeReset := some (startOfDay now2) } ∧
      (getAvailableSwipes
          (incrementDailySwipes (iterateConsume s i now 20) i now2).2 i now2).1.total = 19) := by
  have hbase := getAvailableSwipes_sameDay s i now u hu (startOfDay now) hr (startOfDay_idem now)
  have h20 := iterateConsume_findUser s i now u hu hr 20
  have h20day := getAvailableSwipes_sameDay (iterateConsume s i now 20) i now
    { u with dailySwipes := u.dailySwipes + 20 } h20 (startOfDay now) hr (startOfDay_idem now)
  refine ⟨by rw [hbase], by rw [hbase], ?_, ?_⟩
  · rw [h20day]
    simp [hd0, hp]
  · intro now2 hne
    have hneed : resetNeeded { u with dailySwipes := u.dailySwipes + 20 } now2 = true := by
      unfold resetNeeded
      have heq : (({ u with dailySwipes := u.dailySwipes + 20 } : Profile).lastSwipeReset)
          = some (startOfDay now) := hr
      rw [heq]
      show (startOfDay (startOfDay now) != startOfDay now2) = true
      rw [startOfDay_idem]
      simpa using fun h => hne h.symm
    have hfind : findUser (incrementDailySwipes (iterateConsume s i now 20) i now2).2 i =
        some { u with dailySwipes := 1, lastSwipeReset := some (startOfDay now2) } := by
      unfold incrementDailySwipes checkAndResetDailySwipes
      rw [h20]
      simp only [hneed, if_true]
      rw [findUser_setUser_self (setUser (iterateConsume s i now 20) i
            (fun p => { p with dailySwipes := 0, lastSwipeReset := some (startOfDay now2) })) i
            (fun p => { p with dailySwipes := p.dailySwipes + 1 }) (fun p => rfl),
          findUser_setUser_self (iterateConsume s i now 20) i
            (fun p => { p with dailySwipes := 0, lastSwipeReset := some (startOfDay now2) })
            (fun p => rfl), h20]
      rfl
    refine ⟨hfind, ?_⟩
    have := getAvailableSwipes_sameDay
      (incrementDailySwipes (iterateConsume s i now 20) i now2).2 i now2
      { u with dailySwipes := 1, lastSwipeReset := some (startOfDay now2) } hfind
      (startOfDay now2) rfl (startOfDay_idem now2)
    rw [this]
    simp [hp]

/-- Witness for C3: a fresh profile on day 0 exhausts on the 20th
consumption and recovers to 19 on the first consumption of day 1. -/
theorem daily_limit_boundary_witness :
    findUser [profFresh] 1 = some profFresh ∧
      (getAvailableSwipes (iterateConsume [profFresh] 1 0 20) 1 0).1.total = 0 ∧
      findUser (incrementDailySwipes (iterateConsume [profFresh] 1 0 20) 1 86400000).2 1 =
        some { profFresh with dailySwipes := 1, lastSwipeReset := some 86400000 } ∧
      (getAvailableSwipes
          (incrementDailySwipes (iterateConsume [profFresh] 1 0 20) 1 86400000).2
          1 86400000).1.total = 19 := by
  have h := daily_limit_boundary [profFresh] 1 0 profFresh rfl rfl rfl (by decide)
  have h2 := h.2.2.2 86400000 (by decide)
  refine ⟨rfl, h.2.2.1, ?_, ?_⟩
  · rw [h2.1]
    decide
  · exact h2.2

/-! ### Claim C2 -/

theorem showCandidate_store_eq (fuel : Nat) (s : List Profile) (sess : Session)
    (i now : Nat) (u : Profile) (hu : findUser s i = some u) (t : Nat)
    (hr : u.lastSwipeReset = some t) (hd : startOfDay t = startOfDay now) :
    (showCandidate fuel s sess i now).2.1 = s := by
  induction fuel generalizing sess with
  | zero => rfl
  | succ n ih =>
    simp only [showCandidate, hu, getAvailableSwipes_sameDay s i now u hu t hr hd]
    repeat' split
    all_goals first | rfl | exact ih _

/-- Claim C2 (amended): on a day whose reset already happened, a skip with
purchased credits decrements `purchasedSwipes` by one and leaves
`dailySwipes` unchanged; with no purchased credits and `dailySwipes < 20`
it increments `dailySwipes` and leaves `purchasedSwipes` unchanged; with
no purchased credits and `dailySwipes ≥ 20` the handler short-circuits to
the purchase offer and leaves the store unchanged. -/
theorem skip_consumption (s : List Profile) (sess : Session) (meId now : Nat) (u : Profile)
    (hu : findUser s meId = some u) (t : Nat) (hr : u.lastSwipeReset = some t)
    (hd : startOfDay t = startOfDay now) :
    (0 < u.purchasedSwipes →
      findUser (skipAction s sess meId now).2.1 meId =
        some { u with purchasedSwipes := u.purchasedSwipes - 1 }) ∧
    (u.purchasedSwipes = 0 → u.dailySwipes < 20 →
      findUser (skipAction s sess meId now).2.1 meId =
        some { u with dailySwipes := u.dailySwipes + 1 }) ∧
    (u.purchasedSwipes = 0 → 20 ≤ u.dailySwipes →
      (skipAction s sess meId now).1 = Response.purchaseOffer ∧
      (skipAction s sess meId now).2.1 = s) := by
  refine ⟨?_, ?_, ?_⟩
  · intro hpos
    have hgate : ¬ (20 - u.dailySwipes + u.purchasedSwipes = 0) := by omega
    have hstore : (skipAction s sess meId now).2.1 =
        setUser s meId (fun p => { p with purchasedSwipes := p.purchasedSwipes - 1 }) := by
      simp only [skipAction, hu, getAvailableSwipes_sameDay s meId now u hu t hr hd]
      rw [if_neg hgate, if_pos hpos]
      exact showCandidate_store_eq 4 _ _ meId now
        { u with purchasedSwipes := u.purchasedSwipes - 1 }
        (by
          rw [findUser_setUser_self s meId
            (fun p => { p with purchasedSwipes := p.purchasedSwipes - 1 }) (fun p => rfl), hu]
          rfl)
        t hr hd
    rw [hstore, findUser_setUser_self s meId
      (fun p => { p with purchasedSwipes := p.purchasedSwipes - 1 }) (fun p => rfl), hu]
    rfl
  · intro hz hlt
    have hgate : ¬ (20 - u.dailySwipes + u.purchasedSwipes = 0) := by omega
    have hneg : ¬ (0 < u.purchasedSwipes) := by omega
    have hstore : (skipAction s sess meId now).2.1 =
        setUser s meId (fun p => { p with dailySwipes := p.dailySwipes + 1 }) := by
      simp only [skipAction, hu, getAvailableSwipes_sameDay s meId now u hu t hr hd]
      rw [if_neg hgate, if_neg hneg,
          incrementDailySwipes_sameDay s meId now u hu t hr hd]
      exact showCandidate_store_eq 4 _ _ meId now
        { u with dailySwipes := u.dailySwipes + 1 }
        (by
          rw [findUser_setUser_self s meId
            (fun p => { p with dailySwipes := p.dailySwipes + 1 }) (fun p => rfl), hu]
          rfl)
        t hr hd
    rw [hstore, findUser_setUser_self s meId
      (fun p => { p with dailySwipes := p.dailySwipes + 1 }) (fun p => rfl), hu]
    rfl
  · intro hz hge
    have hgate : 20 - u.dailySwipes + u.purchasedSwipes = 0 := by omega
    constructor
    · simp only [skipAction, hu, getAvailableSwipes_sameDay s meId now u hu t hr hd]
      rw [if_pos hgate]
    · simp only [skipAction, hu, getAvailableSwipes_sameDay s meId now u hu t hr hd]
      rw [if_pos hgate]

/-- Counterexample for claim C2 as stated: a user with zero purchased
credits, a same-day reset and `dailySwipes = 20` is not incremented by a
skip action — the handler short-circuits to the purchase offer and the
daily counter stays 20 instead of becoming 21. -/
theorem skip_at_limit_counterexample :
    profLimit.purchasedSwipes = 0 ∧
    profLimit.dailySwipes = 20 ∧
    profLimit.lastSwipeReset = some (startOfDay 0) ∧
    (skipAction [profLimit] {} 1 0).1 = Response.purchaseOffer ∧
    findUser (skipAction [profLimit] {} 1 0).2.1 1 = some profLimit := by
  refine ⟨rfl, rfl, by decide, ?_, ?_⟩
  · decide
  · decide

/-- Witness for C2 (amended): purchased credits are spent first (5 → 4,
daily unchanged), and with no credits the daily counter is incremented
(5 → 6, credits unchanged). -/
theorem skip_consumption_witness :
    findUser (skipAction [profPurch] {} 1 0).2.1 1 =
      some { profPurch with purchasedSwipes := 4 } ∧
    findUser (skipAction [profA, profB] {} 1 0).2.1 1 =
      some { profA with dailySwipes := 6 } := by
  have h1 := (skip_consumption [profPurch] {} 1 0 profPurch rfl 0 rfl rfl).1 (by decide)
  have h2 := (skip_consumption [profA, profB] {} 1 0 profA rfl 0 rfl rfl).2.1 rfl (by decide)
  exact ⟨h1, h2⟩

/-! ### Claim C1 -/

theorem findUser_setUser_setUser (s : List Profile) (A B : Nat) (hAB : A ≠ B)
    (f g : Profile → Profile) (hf : ∀ p, (f p).id = p.id) (hg : ∀ p, (g p).id = p.id)
    (me : Profile) (hme : findUser s A = some me) :
    findUser (setUser (setUser s A f) B g) A = some (f me) := by
  rw [findUser_setUser_other _ B A g hg hAB, findUser_setUser_self s A f hf, hme]
  rfl

/-- Claim C1 (amended): sending the message in the
`waiting-for-message-to-target` state records the like (with the same
match detection as the Like action) but consumes no swipe unit — the
sender's `purchasedSwipes` and `dailySwipes` are both left unchanged. -/
theorem message_send_no_consumption (s : List Profile) (sess : Session)
    (meId targetId now : Nat) (me them : Profile)
    (hne : targetId ≠ meId)
    (hme : findUser s meId = some me) (hth : findUser s targetId = some them)
    (t : Nat) (hr : me.lastSwipeReset = some t) (hd : startOfDay t = startOfDay now) :
    findUser (messageSendAction s sess meId targetId now).2.1 meId =
      some { me with likes := pushUnless me.likes targetId,
                     «matches» := if them.likes.contains meId
                                  then pushUnless me.matches targetId
                                  else me.matches } := by
  by_cases hmf : them.likes.contains meId
  · rw [if_pos hmf]
    simp only [messageSendAction, hme, hth,
      getAvailableSwipes_sameDay s meId now me hme t hr hd]
    rw [if_neg hne, if_pos hmf, if_pos hmf]
    by_cases hgate : 20 - me.dailySwipes + me.purchasedSwipes = 0
    · rw [if_pos hgate]
      refine findUser_setUser_setUser s meId targetId (Ne.symm hne) _ _ ?_ ?_ me hme
      · exact fun p => rfl
      · exact fun p => rfl
    · rw [if_neg hgate]
      rw [showCandidate_store_eq 4 _ _ meId now
        { me with likes := pushUnless me.likes targetId,
                  «matches» := pushUnless me.matches targetId } ?_ t hr hd]
      · refine findUser_setUser_setUser s meId targetId (Ne.symm hne) _ _ ?_ ?_ me hme
        · exact fun p => rfl
        · exact fun p => rfl
      · refine findUser_setUser_setUser s meId targetId (Ne.symm hne) _ _ ?_ ?_ me hme
        · exact fun p => rfl
        · exact fun p => rfl
  · rw [if_neg hmf]
    simp only [messageSendAction, hme, hth,
      getAvailableSwipes_sameDay s meId now me hme t hr hd]
    rw [if_neg hne, if_neg hmf, if_neg hmf]
    by_cases hgate : 20 - me.dailySwipes + me.purchasedSwipes = 0
    · rw [if_pos hgate]
      refine findUser_setUser_setUser s meId targetId (Ne.symm hne) _ _ ?_ ?_ me hme
      · exact fun p => rfl
      · exact fun p => rfl
    · rw [if_neg hgate]
      rw [showCandidate_store_eq 4 _ _ meId now
        { me with likes := pushUnless me.likes targetId } ?_ t hr hd]
      · refine findUser_setUser_setUser s meId targetId (Ne.symm hne) _ _ ?_ ?_ me hme
        · exact fun p => rfl
        · exact fun p => rfl
      · refine findUser_setUser_setUser s meId targetId (Ne.symm hne) _ _ ?_ ?_ me hme
        · exact fun p => rfl
        · exact fun p => rfl

/-- Counterexample for claim C1 as stated: sender `profA` (no purchased
credits, 5 daily swipes used, reset today) sends the message to `profB`;
the like is recorded but `dailySwipes` stays 5 instead of becoming 6 and
`purchasedSwipes` stays 0 — no swipe unit is consumed. -/
theorem message_send_counterexample :
    (findUser (messageSendAction [profA, profB] {} 1 2 0).2.1 1).map Profile.likes =
      some [2] ∧
    (findUser (messageSendAction [profA, profB] {} 1 2 0).2.1 1).map Profile.dailySwipes =
      some 5 ∧
    (findUser (messageSendAction [profA, profB] {} 1 2 0).2.1 1).map Profile.purchasedSwipes =
      some 0 ∧
    profA.dailySwipes = 5 ∧ profA.purchasedSwipes = 0 := by
  refine ⟨?_, ?_, ?_, rfl, rfl⟩ <;> decide

/-- Witness for C1 (amended): the concrete message send above leaves the
sender's counters untouched while recording the like. -/
theorem message_send_no_consumption_witness :
    findUser (messageSendAction [profA, profB] {} 1 2 0).2.1 1 =
      some { profA with likes := [2] } := by
  have h := message_send_no_consumption [profA, profB] {} 1 2 0 profA profB
    (by decide) rfl rfl 0 rfl rfl
  rw [h]
  decide

/-! ### Claim C8 -/

/-- Claim C8: when presentation begins and the user's current `looking`
value differs from the session's cached fingerprint, the engine behaves
exactly as on a session whose shown-set and queue are cleared and whose
fingerprint is the current value — in particular the old shown-set is
irrelevant — and the subsequent rebuild uses the empty shown-set, so
previously shown candidates are eligible again. -/
theorem pref_change_resets (s : List Profile) (sess : Session) (meId now : Nat)
    (me : Profile) (hme : findUser s meId = some me)
    (hmm : sess.lastPreference ≠ some (me.looking.getD "men")) :
    (∀ sh : List Nat,
      showNext s { sess with shown := sh } meId now =
        showNext s (clearedSession sess (me.looking.getD "men")) meId now) ∧
    refillA s meId (clearedSession sess (me.looking.getD "men")) =
      { clearedSession sess (me.looking.getD "men") with
          queue := (buildCandidateQueue s meId [] true).1,
          shown := (buildCandidateQueue s meId [] true).2 } := by
  constructor
  · intro sh
    have hb1 : (sess.lastPreference != some (me.looking.getD "men")) = true := by
      simpa using hmm
    have hb2 : ¬ ((some (me.looking.getD "men") !=
        some (me.looking.getD "men")) = true) := by
      simp
    simp only [showNext, hme, clearedSession]
    rw [if_pos hb1, if_neg hb2]
  · simp only [refillA, clearedSession]
    rw [if_pos (show (((none : Option (List Profile)).getD []).isEmpty) = true from rfl)]
    by_cases h : (((buildCandidateQueue s meId [] true).1.getD []).isEmpty) = true
    · rw [if_pos h]
    · rw [if_neg h]

/-- Witness for C8: the fresh session's `null` fingerprint differs from
profile A's `looking = women`, so presentation from a session that has
already shown user 2 equals presentation from the cleared session. -/
theorem pref_change_resets_witness :
    (showNext [profA, profB] { shown := [2] } 1 0 =
      showNext [profA, profB] (clearedSession {} "women") 1 0) ∧
    refillA [profA, profB] 1 (clearedSession {} "women") =
      { clearedSession {} "women" with
          queue := (buildCandidateQueue [profA, profB] 1 [] true).1,
          shown := (buildCandidateQueue [profA, profB] 1 [] true).2 } := by
  have h := pref_change_resets [profA, profB] {} 1 0 profA rfl (by decide)
  exact ⟨h.1 [2], h.2⟩

/-! ### Claim C6 -/

theorem insertById_perm (p : Profile) : ∀ l, List.Perm (insertById p l) (p :: l) := by
  intro l
  induction l with
  | nil => exact List.Perm.refl _
  | cons q r ih =>
    unfold insertById
    by_cases h : p.id ≤ q.id
    · rw [if_pos h]
    · rw [if_neg h]
      exact (ih.cons q).trans (List.Perm.swap p q r)

theorem sortById_perm (l : List Profile) : List.Perm (sortById l) l := by
  induction l with
  | nil => exact List.Perm.refl _
  | cons a r ih =>
    exact (insertById_perm a (sortById r)).trans (ih.cons a)

theorem sortById_eq_nil_iff (l : List Profile) : sortById l = [] ↔ l = [] := by
  constructor
  · intro h
    have hp := sortById_perm l
    rw [h] at hp
    exact hp.symm.eq_nil
  · intro h
    rw [h]
    rfl

theorem strictFilter_mem_relaxedAll (s : List Profile) (meId : Nat) (me : Profile)
    (sh : List Nat) (u : Profile) (hu : u ∈ strictFilter s meId me sh) :
    u ∈ relaxedFilter s meId [] := by
  simp only [strictFilter, relaxedFilter, List.mem_filter] at hu ⊢
  refine ⟨hu.1, ?_⟩
  have h2 := hu.2
  simp only [Bool.and_eq_true] at h2 ⊢
  exact ⟨⟨h2.1.1.1, h2.1.1.2⟩, by simp⟩

theorem relaxedFilter_mem_relaxedAll (s : List Profile) (meId : Nat)
    (sh : List Nat) (u : Profile) (hu : u ∈ relaxedFilter s meId sh) :
    u ∈ relaxedFilter s meId [] := by
  simp only [relaxedFilter, List.mem_filter] at hu ⊢
  refine ⟨hu.1, ?_⟩
  have h2 := hu.2
  simp only [Bool.and_eq_true] at h2 ⊢
  exact ⟨⟨h2.1.1, h2.1.2⟩, by simp⟩

theorem ne_nil_of_mem_transfer {l1 l2 : List Profile}
    (h : ∀ u ∈ l1, u ∈ l2) (hne : l1 ≠ []) : l2 ≠ [] := by
  match l1, hne with
  | u :: r, _ =>
    have hm := h u (by simp)
    intro h2
    rw [h2] at hm
    exact absurd hm (List.not_mem_nil u)

theorem buildQueueBase_spec (s : List Profile) (meId : Nat) (me : Profile)
    (hme : findUser s meId = some me) (ex : Bool) :
    ∃ l, (buildQueueBase s meId ex).1 = some l ∧
      (l = [] ↔ relaxedFilter s meId [] = []) := by
  simp only [buildQueueBase, hme]
  by_cases hstrict : (strictFilter s meId me []).isEmpty = true
  · rw [if_pos hstrict]
    exact ⟨sortById (relaxedFilter s meId []), rfl, by rw [sortById_eq_nil_iff]⟩
  · rw [if_neg hstrict]
    refine ⟨sortById (strictFilter s meId me []), rfl, ?_⟩
    rw [sortById_eq_nil_iff]
    have hne : strictFilter s meId me [] ≠ [] := by
      intro h
      rw [h] at hstrict
      simp at hstrict
    have hne2 := ne_nil_of_mem_transfer
      (fun u hu => strictFilter_mem_relaxedAll s meId me [] u hu) hne
    exact ⟨fun h => absurd h hne, fun h => absurd h hne2⟩

theorem buildQueue_spec (s : List Profile) (meId : Nat) (me : Profile)
    (hme : findUser s meId = some me) (shown : List Nat) (ex : Bool) :
    ∃ l, (buildCandidateQueue s meId shown ex).1 = some l ∧
      (l = [] ↔ relaxedFilter s meId [] = []) := by
  simp only [buildCandidateQueue, hme]
  set sids := (if ex then shown else []) with hsids
  by_cases h1 : ((strictFilter s meId me sids).isEmpty && ex && !sids.isEmpty) = true
  · rw [if_pos h1]
    exact buildQueueBase_spec s meId me hme false
  · rw [if_neg h1]
    by_cases h2 : (strictFilter s meId me sids).isEmpty = true
    · rw [if_pos h2]
      by_cases h3 : ((relaxedFilter s meId sids).isEmpty && ex && !sids.isEmpty) = true
      · rw [if_pos h3]
        exact buildQueueBase_spec s meId me hme true
      · rw [if_neg h3]
        refine ⟨sortById (relaxedFilter s meId sids), rfl, ?_⟩
        rw [sortById_eq_nil_iff]
        constructor
        · intro h
          have hsid0 : sids = [] := by
            cases hex : ex with
            | false =>
              rw [hsids, hex]
              rfl
            | true =>
              have h3x := h3
              rw [h, hex] at h3x
              simp at h3x
              exact h3x
          rw [hsid0] at h
          exact h
        · intro h
          cases hcase : relaxedFilter s meId sids with
          | nil => rfl
          | cons a r =>
            have hm := relaxedFilter_mem_relaxedAll s meId sids a (by rw [hcase]; simp)
            rw [h] at hm
            exact absurd hm (List.not_mem_nil a)
    · rw [if_neg h2]
      refine ⟨sortById (strictFilter s meId me sids), rfl, ?_⟩
      rw [sortById_eq_nil_iff]
      have hne : strictFilter s meId me sids ≠ [] := by
        intro h
        rw [h] at h2
        simp at h2
      have hne2 := ne_nil_of_mem_transfer
        (fun u hu => strictFilter_mem_relaxedAll s meId me sids u hu) hne
      exact ⟨fun h => absurd h hne, fun h => absurd h hne2⟩

/-- Claim C6: for a user with a profile, the queue builder always
returns a list (never `null`), and that list is empty exactly when the
addressable population — every valid stored user other than the
requester — is empty; so any other valid user guarantees a non-empty
result, for every shown-set and both `excludeShown` modes. -/
theorem buildQueue_empty_iff (s : List Profile) (meId : Nat) (me : Profile)
    (hme : findUser s meId = some me) (shown : List Nat) (ex : Bool) :
    ∃ l, (buildCandidateQueue s meId shown ex).1 = some l ∧
      (l = [] ↔ relaxedFilter s meId [] = []) :=
  buildQueue_spec s meId me hme shown ex

/-- Witness for C6: with user 2 valid and present, the builder returns a
non-empty list for user 1 even though user 2 is in the shown-set. -/
theorem buildQueue_empty_iff_witness :
    ∃ l, (buildCandidateQueue [profA, profB] 1 [2] true).1 = some l ∧
      (l = [] ↔ relaxedFilter [profA, profB] 1 [] = []) :=
  buildQueue_empty_iff [profA, profB] 1 profA rfl [2] true

/-! ### Claim C9 -/

theorem isEmpty_false_of_ne_nil {l : List Profile} (h : l ≠ []) : l.isEmpty = false := by
  cases l with
  | nil => exact absurd rfl h
  | cons a r => rfl

theorem refillA_queue_ne (s : List Profile) (meId : Nat) (sess : Session) (me : Profile)
    (hme : findUser s meId = some me) (hother : relaxedFilter s meId [] ≠ []) :
    (((refillA s meId sess).queue.getD []).isEmpty) = false := by
  unfold refillA
  by_cases h : ((sess.queue.getD []).isEmpty) = true
  · rw [if_pos h]
    obtain ⟨l1, hl1, hiff1⟩ := buildQueue_spec s meId me hme sess.shown true
    have hl1ne : l1 ≠ [] := fun hh => hother (hiff1.mp hh)
    have hl1f : l1.isEmpty = false := isEmpty_false_of_ne_nil hl1ne
    rw [if_neg (by simp [hl1, hl1f])]
    simp [hl1, hl1f]
  · rw [if_neg h]
    simpa using h

theorem refillB_queue_ne (s : List Profile) (meId : Nat) (sess : Session) (me : Profile)
    (hme : findUser s meId = some me) (hother : relaxedFilter s meId [] ≠ []) :
    (((refillB s meId sess).queue.getD []).isEmpty) = false := by
  unfold refillB
  by_cases h : ((sess.queue.getD []).isEmpty) = true
  · rw [if_pos h]
    obtain ⟨l1, hl1, hiff1⟩ := buildQueue_spec s meId me hme [] true
    have hl1ne : l1 ≠ [] := fun hh => hother (hiff1.mp hh)
    have hl1f : l1.isEmpty = false := isEmpty_false_of_ne_nil hl1ne
    rw [if_neg (by simp [hl1, hl1f])]
    simp [hl1, hl1f]
  · rw [if_neg h]
    simpa using h

/-- Claim C9: when the available swipe total is zero (and the daily
reset already happened today), the swipe-consuming entries — skip, like,
entering the message flow, and presenting a candidate — short-circuit to
the purchase-offer response; the persisted store is returned unchanged
(no likes, matches or swipe counters are written), the skip/like/message
handlers leave the session untouched, and no candidate is popped. -/
theorem zero_total_short_circuit (s : List Profile) (sess : Session)
    (meId targetId now : Nat) (u them : Profile)
    (hu : findUser s meId = some u) (t : Nat) (hr : u.lastSwipeReset = some t)
    (hd : startOfDay t = startOfDay now)
    (htot : 20 - u.dailySwipes + u.purchasedSwipes = 0)
    (hth : findUser s targetId = some them)
    (hpop : 1 < s.length)
    (hother : relaxedFilter s meId [] ≠ []) :
    skipAction s sess meId now = (Response.purchaseOffer, s, sess) ∧
    likeAction s sess meId targetId now = (Response.purchaseOffer, s, sess) ∧
    messageButton s sess meId targetId now = (Response.purchaseOffer, s, sess) ∧
    (showNext s sess meId now).1 = Response.purchaseOffer ∧
    (showNext s sess meId now).2.1 = s := by
  have hgs := getAvailableSwipes_sameDay s meId now u hu t hr hd
  refine ⟨?_, ?_, ?_, ?_, ?_⟩
  · simp only [skipAction, hu, hgs]
    rw [if_pos htot]
  · simp only [likeAction, hu, hth, hgs]
    rw [if_pos htot]
  · simp only [messageButton, hu, hgs]
    rw [if_pos htot]
  · simp only [showNext, hu, hgs]
    rw [if_neg (by omega : ¬ (s.length ≤ 1))]
    rw [if_neg (by
      rw [refillB_queue_ne s meId _ u hu hother]
      simp)]
    rw [if_pos htot]
  · simp only [showNext, hu, hgs]
    rw [if_neg (by omega : ¬ (s.length ≤ 1))]
    rw [if_neg (by
      rw [refillB_queue_ne s meId _ u hu hother]
      simp)]
    rw [if_pos htot]

/-- Witness for C9: user 1 exhausted the quota; all four entries return
the purchase offer on the concrete two-user store, leaving it unchanged. -/
theorem zero_total_short_circuit_witness :
    skipAction [profLimit, profB] {} 1 0 = (Response.purchaseOffer, [profLimit, profB], {}) ∧
    likeAction [profLimit, profB] {} 1 2 0 =
      (Response.purchaseOffer, [profLimit, profB], {}) ∧
    messageButton [profLimit, profB] {} 1 2 0 =
      (Response.purchaseOffer, [profLimit, profB], {}) ∧
    (showNext [profLimit, profB] {} 1 0).1 = Response.purchaseOffer ∧
    (showNext [profLimit, profB] {} 1 0).2.1 = [profLimit, profB] :=
  zero_total_short_circuit [profLimit, profB] {} 1 2 0 profLimit profB rfl 0 rfl rfl
    (by decide) rfl (by decide) (by decide)

/-! ### Claim C7 -/

theorem find?_pair_map (sessions : List (Nat × Session)) (i : Nat) (f : Session → Session) :
    (sessions.map (fun e => if e.1 = i then (e.1, f e.2) else e)).find? (fun e => e.1 == i)
      = (sessions.find? (fun e => e.1 == i)).map (fun e => (e.1, f e.2)) := by
  induction sessions with
  | nil => rfl
  | cons e rest ih =>
    by_cases h : e.1 = i
    · rw [List.map_cons, if_pos h]
      rw [List.find?_cons_of_pos _ (by simp [h]), List.find?_cons_of_pos _ (by simp [h])]
      rfl
    · rw [List.map_cons, if_neg h]
      rw [List.find?_cons_of_neg _ (by simp [h]), List.find?_cons_of_neg _ (by simp [h])]
      exact ih

theorem find?_append_none {α : Type} (p : α → Bool) (l1 l2 : List α)
    (h : l1.find? p = none) : (l1 ++ l2).find? p = l2.find? p := by
  induction l1 with
  | nil => rfl
  | cons a r ih =>
    cases hpa : p a with
    | true =>
      rw [List.find?_cons_of_pos _ hpa] at h
      exact absurd h (by simp)
    | false =>
      rw [List.find?_cons_of_neg _ (by simp [hpa])] at h
      rw [List.cons_append, List.find?_cons_of_neg _ (by simp [hpa])]
      exact ih h

theorem getSessionIn_setSessionIn (sessions : List (Nat × Session)) (i : Nat)
    (f : Session → Session) :
    getSessionIn (setSessionIn sessions i f) i = f (getSessionIn sessions i) := by
  unfold getSessionIn setSessionIn
  cases hfind : sessions.find? (fun e => e.1 == i) with
  | none =>
    simp only [hfind]
    rw [find?_append_none _ sessions _ hfind]
    rw [List.find?_cons_of_pos _ (by simp)]
  | some e =>
    simp only [hfind]
    rw [find?_pair_map, hfind]
    rfl

theorem purgeUser_cleans (s : List Profile) (x : Nat) :
    ∀ p ∈ purgeUser s x,
      p.id ≠ x ∧ x ∉ p.likes ∧ x ∉ p.matches ∧ x ∉ p.recentLikes := by
  intro p hp
  unfold purgeUser at hp
  rw [List.mem_filter] at hp
  obtain ⟨hpm, hpne⟩ := hp
  rw [List.mem_map] at hpm
  obtain ⟨q, _hq, hq2⟩ := hpm
  have hpidne : p.id ≠ x := by simpa using hpne
  refine ⟨hpidne, ?_, ?_, ?_⟩
  all_goals
    by_cases hqx : q.id = x
    · rw [if_pos hqx] at hq2
      subst hq2
      exact absurd hqx hpidne
    · rw [if_neg hqx] at hq2
      subst hq2
      simp

theorem findUser_purgeUser (s : List Profile) (x : Nat) :
    findUser (purgeUser s x) x = none := by
  unfold findUser
  rw [List.find?_eq_none]
  intro p hp
  have h := (purgeUser_cleans s x p hp).1
  simpa using h

/-- Claim C7: after the delete command has armed the deletion-reason
step, the next text message is persisted as the reason record, the
requester is removed from every remaining profile's `likes`, `matches`
and `recentLikes`, the requester's own document is deleted, and the
requester's session entry is removed from the session map entirely. -/
theorem deletion_flow (s : List Profile) (sessions : List (Nat × Session))
    (reasons : List DeletionReason) (X : Nat) (text : String) (now : Nat) (u : Profile)
    (hu : findUser s X = some u) :
    (getSessionIn (deleteCommand s sessions X).1 X).waitingForDeletionReason = true ∧
    (deletionReasonStep s sessions reasons X text now).2.2.1 =
      reasons ++ [⟨X, u.name, text.trim, now⟩] ∧
    findUser (deletionReasonStep s sessions reasons X text now).1 X = none ∧
    (∀ p ∈ (deletionReasonStep s sessions reasons X text now).1,
      X ∉ p.likes ∧ X ∉ p.matches ∧ X ∉ p.recentLikes) ∧
    ((deletionReasonStep s sessions reasons X text now).2.1).find?
      (fun e => e.1 == X) = none := by
  refine ⟨?_, ?_, ?_, ?_, ?_⟩
  · simp only [deleteCommand, hu]
    rw [getSessionIn_setSessionIn]
  · simp only [deletionReasonStep, hu]
  · simp only [deletionReasonStep, hu]
    exact findUser_purgeUser s X
  · simp only [deletionReasonStep, hu]
    intro p hp
    exact (purgeUser_cleans s X p hp).2
  · simp only [deletionReasonStep, hu]
    rw [List.find?_eq_none]
    intro e he
    rw [List.mem_filter] at he
    simpa using he.2

/-- Witness for C7: deleting user 1 records the trimmed reason, purges
user 1 from profile E's arrays, deletes the document and drops the
session entry. -/
theorem deletion_flow_witness :
    (getSessionIn (deleteCommand [profA, profE] [(1, {})] 1).1 1).waitingForDeletionReason
      = true ∧
    (deletionReasonStep [profA, profE] [(1, {})] [] 1 "bye" 7).2.2.1 =
      [⟨1, "A", "bye".trim, 7⟩] ∧
    (deletionReasonStep [profA, profE] [(1, {})] [] 1 "bye" 7).1 =
      [{ profE with likes := [3], «matches» := [], recentLikes := [3] }] ∧
    (deletionReasonStep [profA, profE] [(1, {})] [] 1 "bye" 7).2.1 = [] := by
  have h := deletion_flow [profA, profE] [(1, {})] [] 1 "bye" 7 profA rfl
  refine ⟨h.1, h.2.1, ?_, ?_⟩
  · decide
  · decide

/-! ### Claim C4 -/

theorem pushUnless_mem (l : List Nat) (y x : Nat) :
    x ∈ pushUnless l y ↔ x ∈ l ∨ x = y := by
  unfold pushUnless
  by_cases h : l.contains y
  · rw [if_pos h]
    have hy : y ∈ l := by simpa using h
    constructor
    · exact fun hx => Or.inl hx
    · intro hx
      cases hx with
      | inl hx => exact hx
      | inr hx => rw [hx]; exact hy
  · rw [if_neg h]
    simp

theorem eq_of_findUser (s : List Profile) (hN : NodupIds s) (p : Profile)
    (hp : p ∈ s) (i : Nat) (hpi : p.id = i) (u : Profile)
    (hu : findUser s i = some u) : p = u := by
  have humem : u ∈ s := List.mem_of_find?_eq_some hu
  have huid : u.id = i := by simpa using List.find?_some hu
  exact List.inj_on_of_nodup_map hN hp humem (by rw [hpi, huid])

theorem nodupIds_map (s : List Profile) (h : Profile → Profile)
    (hid : ∀ p, (h p).id = p.id) (hN : NodupIds s) : NodupIds (s.map h) := by
  unfold NodupIds at *
  rw [List.map_map]
  have : (Profile.id ∘ h) = Profile.id := funext hid
  rw [this]
  exact hN

theorem matchSym_map_pair (s : List Profile) (h : Profile → Profile) (A B : Nat)
    (c : Prop) (hid : ∀ p, (h p).id = p.id)
    (hm : ∀ p ∈ s, ∀ x : Nat,
      (x ∈ (h p).matches ↔
        x ∈ p.matches ∨ (c ∧ p.id = A ∧ x = B) ∨ (c ∧ p.id = B ∧ x = A)))
    (hsym : MatchSym s) : MatchSym (s.map h) := by
  intro p2 hp2 q2 hq2
  rw [List.mem_map] at hp2 hq2
  obtain ⟨p, hp, rfl⟩ := hp2
  obtain ⟨q, hq, rfl⟩ := hq2
  rw [hid p, hid q, hm p hp q.id, hm q hq p.id, hsym p hp q hq]
  tauto

theorem storeInv_setUser_keep (s : List Profile) (i : Nat) (f : Profile → Profile)
    (hfid : ∀ p, (f p).id = p.id)
    (hfm : ∀ p ∈ s, p.id = i → (f p).matches = p.matches)
    (hInv : StoreInv s) : StoreInv (setUser s i f) := by
  have hid : ∀ p, ((if p.id = i then f p else p) : Profile).id = p.id := by
    intro p
    by_cases h : p.id = i
    · rw [if_pos h]
      exact hfid p
    · rw [if_neg h]
  constructor
  · exact nodupIds_map s _ hid hInv.1
  · refine matchSym_map_pair s _ i i False hid ?_ hInv.2
    intro p hp x
    by_cases h : p.id = i
    · rw [if_pos h, hfm p hp h]
      tauto
    · rw [if_neg h]
      tauto

theorem storeInv_setUser_selfLike (s : List Profile) (A : Nat) (f : Profile → Profile)
    (hfid : ∀ p, (f p).id = p.id)
    (hfm : ∀ p ∈ s, p.id = A → ∀ x, (x ∈ (f p).matches ↔ x ∈ p.matches ∨ x = A))
    (hInv : StoreInv s) : StoreInv (setUser s A f) := by
  have hid : ∀ p, ((if p.id = A then f p else p) : Profile).id = p.id := by
    intro p
    by_cases h : p.id = A
    · rw [if_pos h]
      exact hfid p
    · rw [if_neg h]
  constructor
  · exact nodupIds_map s _ hid hInv.1
  · refine matchSym_map_pair s _ A A True hid ?_ hInv.2
    intro p hp x
    by_cases h : p.id = A
    · rw [if_pos h, hfm p hp h x]
      tauto
    · rw [if_neg h]
      tauto

theorem storeInv_setUser_pair (s : List Profile) (A B : Nat) (hAB : A ≠ B)
    (c : Prop) (f g : Profile → Profile)
    (hfid : ∀ p, (f p).id = p.id) (hgid : ∀ p, (g p).id = p.id)
    (hfm : ∀ p ∈ s, p.id = A → ∀ x, (x ∈ (f p).matches ↔ x ∈ p.matches ∨ (c ∧ x = B)))
    (hgm : ∀ p ∈ s, p.id = B → ∀ x, (x ∈ (g p).matches ↔ x ∈ p.matches ∨ (c ∧ x = A)))
    (hInv : StoreInv s) : StoreInv (setUser (setUser s A f) B g) := by
  unfold setUser
  rw [List.map_map]
  have hid : ∀ p : Profile,
      (((fun p => if p.id = B then g p else p) ∘
        (fun p => if p.id = A then f p else p)) p).id = p.id := by
    intro p
    simp only [Function.comp]
    by_cases hA : p.id = A
    · rw [if_pos hA]
      have : (f p).id = p.id := hfid p
      rw [if_neg (by rw [this, hA]; exact hAB), this]
    · rw [if_neg hA]
      by_cases hB : p.id = B
      · rw [if_pos hB]
        exact hgid p
      · rw [if_neg hB]
  constructor
  · exact nodupIds_map s _ hid hInv.1
  · refine matchSym_map_pair s _ A B c hid ?_ hInv.2
    intro p hp x
    simp only [Function.comp]
    by_cases hA : p.id = A
    · rw [if_pos hA]
      rw [if_neg (by rw [hfid p, hA]; exact hAB)]
      rw [hfm p hp hA x]
      have hpB : ¬ p.id = B := by rw [hA]; exact hAB
      tauto
    · rw [if_neg hA]
      by_cases hB : p.id = B
      · rw [if_pos hB, hgm p hp hB x]
        tauto
      · rw [if_neg hB]
        tauto

theorem arraysSim_refl (s : List Profile) : ArraysSim s s := by
  intro p hp
  exact ⟨p, hp, rfl, rfl, rfl, rfl⟩

theorem arraysSim_setUser (s s2 : List Profile) (hsim : ArraysSim s s2)
    (i : Nat) (f : Profile → Profile)
    (hf : ∀ p, (f p).id = p.id ∧ (f p).likes = p.likes ∧
      (f p).matches = p.matches ∧ (f p).recentLikes = p.recentLikes) :
    ArraysSim s (setUser s2 i f) := by
  intro p hp
  unfold setUser at hp
  rw [List.mem_map] at hp
  obtain ⟨q, hq, hq2⟩ := hp
  obtain ⟨q0, hq0, h1, h2, h3, h4⟩ := hsim q hq
  by_cases h : q.id = i
  · rw [if_pos h] at hq2
    subst hq2
    obtain ⟨ha, hb, hc, hd⟩ := hf q
    exact ⟨q0, hq0, by rw [h1, ha], by rw [h2, hb], by rw [h3, hc], by rw [h4, hd]⟩
  · rw [if_neg h] at hq2
    subst hq2
    exact ⟨q0, hq0, h1, h2, h3, h4⟩

theorem counter_ops_sim (s : List Profile) (i now : Nat) :
    ArraysSim s (checkAndResetDailySwipes s i now).2 ∧
    ArraysSim s (incrementDailySwipes s i now).2 ∧
    ArraysSim s (getAvailableSwipes s i now).2 := by
  have hcheck : ArraysSim s (checkAndResetDailySwipes s i now).2 := by
    unfold checkAndResetDailySwipes
    cases hf : findUser s i with
    | none => exact arraysSim_refl s
    | some u =>
      dsimp only
      by_cases hr : resetNeeded u now = true
      · rw [if_pos hr]
        exact arraysSim_setUser s s (arraysSim_refl s) i _
          (fun p => ⟨rfl, rfl, rfl, rfl⟩)
      · rw [if_neg hr]
        exact arraysSim_refl s
  refine ⟨hcheck, ?_, ?_⟩
  · unfold incrementDailySwipes
    exact arraysSim_setUser s _ hcheck i _ (fun p => ⟨rfl, rfl, rfl, rfl⟩)
  · unfold getAvailableSwipes
    cases hf : findUser s i with
    | none => exact arraysSim_refl s
    | some u => exact hcheck

theorem storeInv_counter_ops (s : List Profile) (i now : Nat) (hInv : StoreInv s) :
    StoreInv (checkAndResetDailySwipes s i now).2 ∧
    StoreInv (incrementDailySwipes s i now).2 ∧
    StoreInv (getAvailableSwipes s i now).2 := by
  have hcheck : StoreInv (checkAndResetDailySwipes s i now).2 := by
    unfold checkAndResetDailySwipes
    cases hf : findUser s i with
    | none => exact hInv
    | some u =>
      dsimp only
      by_cases hr : resetNeeded u now = true
      · rw [if_pos hr]
        exact storeInv_setUser_keep s i _ (fun p => rfl) (fun p _ _ => rfl) hInv
      · rw [if_neg hr]
        exact hInv
  refine ⟨hcheck, ?_, ?_⟩
  · unfold incrementDailySwipes
    exact storeInv_setUser_keep _ i _ (fun p => rfl) (fun p _ _ => rfl) hcheck
  · unfold getAvailableSwipes
    cases hf : findUser s i with
    | none => exact hInv
    | some u => exact hcheck

theorem storeInv_showCandidate : ∀ (fuel : Nat) (s : List Profile) (sess : Session)
    (meId now : Nat), StoreInv s → StoreInv ((showCandidate fuel s sess meId now).2.1) := by
  intro fuel
  induction fuel with
  | zero => exact fun s sess meId now h => h
  | succ n ih =>
    intro s sess meId now h
    simp only [showCandidate]
    split
    · exact h
    · repeat' split
      all_goals first
        | exact h
        | exact (storeInv_counter_ops s meId now h).2.2
        | exact ih _ _ _ _ ((storeInv_counter_ops s meId now h).2.2)

theorem storeInv_resumeAfterLike (s : List Profile) (sess : Session) (meId now : Nat)
    (h : StoreInv s) : StoreInv ((resumeAfterLike s sess meId now).2.1) := by
  unfold resumeAfterLike
  dsimp only
  repeat' split
  all_goals first
    | exact h
    | exact storeInv_showCandidate 4 _ _ _ _ h

theorem arraysSim_trans {s1 s2 s3 : List Profile} (h12 : ArraysSim s1 s2)
    (h23 : ArraysSim s2 s3) : ArraysSim s1 s3 := by
  intro p hp
  obtain ⟨q, hq, a1, a2, a3, a4⟩ := h23 p hp
  obtain ⟨r, hr, b1, b2, b3, b4⟩ := h12 q hq
  exact ⟨r, hr, by rw [b1, a1], by rw [b2, a2], by rw [b3, a3], by rw [b4, a4]⟩

theorem sim_matches_eq (s s2 : List Profile) (hsim : ArraysSim s s2) (hN : NodupIds s)
    (i : Nat) (u : Profile) (hu : findUser s i = some u) :
    ∀ p ∈ s2, p.id = i → p.matches = u.matches ∧ p.likes = u.likes := by
  intro p hp hpi
  obtain ⟨p0, hp0, hid, hlikes, hmat, _hrec⟩ := hsim p hp
  have hpu : p0 = u := eq_of_findUser s hN p0 hp0 i (by rw [hid, hpi]) u hu
  constructor
  · rw [← hmat, hpu]
  · rw [← hlikes, hpu]

theorem storeInv_likeAction (s : List Profile) (sess : Session)
    (meId targetId now : Nat) (h : StoreInv s) :
    StoreInv ((likeAction s sess meId targetId now).2.1) := by
  unfold likeAction
  cases hme : findUser s meId with
  | none => exact h
  | some me =>
    dsimp only
    cases hth : findUser s targetId with
    | none =>
      dsimp only
      split
      · exact h
      · exact storeInv_showCandidate 4 _ _ _ _ h
    | some them =>
      dsimp only
      by_cases hgate : (getAvailableSwipes s meId now).1.total = 0
      · rw [if_pos hgate]
        exact (storeInv_counter_ops s meId now h).2.2
      · rw [if_neg hgate]
        have hs1 : StoreInv ((getAvailableSwipes s meId now).2) :=
          (storeInv_counter_ops s meId now h).2.2
        have hsim1 : ArraysSim s ((getAvailableSwipes s meId now).2) :=
          (counter_ops_sim s meId now).2.2
        have hs2 : StoreInv (if me.purchasedSwipes > 0
            then (getAvailableSwipes s meId now).2
            else (incrementDailySwipes (getAvailableSwipes s meId now).2 meId now).2) := by
          split
          · exact hs1
          · exact (storeInv_counter_ops _ meId now hs1).2.1
        have hsim2 : ArraysSim s (if me.purchasedSwipes > 0
            then (getAvailableSwipes s meId now).2
            else (incrementDailySwipes (getAvailableSwipes s meId now).2 meId now).2) := by
          split
          · exact hsim1
          · exact arraysSim_trans hsim1 ((counter_ops_sim _ meId now).2.1)
        by_cases halias : targetId = meId
        · rw [if_pos halias]
          apply storeInv_resumeAfterLike
          refine storeInv_setUser_selfLike _ meId _ (fun p => rfl) ?_ hs2
          intro p hp hpi x
          have hpm := sim_matches_eq s _ hsim2 h.1 meId me hme p hp hpi
          dsimp only
          rw [hpm.1, halias, pushUnless_mem]
        · rw [if_neg halias]
          apply storeInv_resumeAfterLike
          refine storeInv_setUser_pair _ meId targetId (fun hh => halias hh.symm)
            (them.likes.contains meId = true) _ _ (fun p => rfl) (fun p => rfl) ?_ ?_ hs2
          · intro p hp hpi x
            have hpm := sim_matches_eq s _ hsim2 h.1 meId me hme p hp hpi
            dsimp only
            rw [hpm.1]
            by_cases hc : them.likes.contains meId = true
            · rw [if_pos hc, pushUnless_mem]
              tauto
            · rw [if_neg hc]
              tauto
          · intro p hp hpi x
            have hpm := sim_matches_eq s _ hsim2 h.1 targetId them hth p hp hpi
            dsimp only
            rw [hpm.1]
            by_cases hc : them.likes.contains meId = true
            · rw [if_pos hc, pushUnless_mem]
              tauto
            · rw [if_neg hc]
              tauto

theorem storeInv_messageSendAction (s : List Profile) (sess : Session)
    (meId targetId now : Nat) (h : StoreInv s) :
    StoreInv ((messageSendAction s sess meId targetId now).2.1) := by
  unfold messageSendAction
  cases hme : findUser s meId with
  | none => exact h
  | some me =>
    dsimp only
    cases hth : findUser s targetId with
    | none => exact storeInv_showCandidate 4 _ _ _ _ h
    | some them =>
      dsimp only
      have hs1 : StoreInv ((getAvailableSwipes s meId now).2) :=
        (storeInv_counter_ops s meId now h).2.2
      have hsim1 : ArraysSim s ((getAvailableSwipes s meId now).2) :=
        (counter_ops_sim s meId now).2.2
      by_cases halias : targetId = meId
      · rw [if_pos halias]
        have hsF : StoreInv (setUser (getAvailableSwipes s meId now).2 meId (fun _p =>
            { _p with likes := pushUnless me.likes targetId,
                      «matches» := pushUnless me.matches targetId })) := by
          refine storeInv_setUser_selfLike _ meId _ (fun p => rfl) ?_ hs1
          intro p hp hpi x
          have hpm := sim_matches_eq s _ hsim1 h.1 meId me hme p hp hpi
          dsimp only
          rw [hpm.1, halias, pushUnless_mem]
        by_cases hgate : (getAvailableSwipes s meId now).1.total = 0
        · rw [if_pos hgate]
          exact hsF
        · rw [if_neg hgate]
          exact storeInv_showCandidate 4 _ _ _ _ hsF
      · rw [if_neg halias]
        by_cases hmf : them.likes.contains meId = true
        · rw [if_pos hmf, if_pos hmf]
          have hsF : StoreInv (setUser (setUser (getAvailableSwipes s meId now).2 meId
              (fun _p => { _p with likes := pushUnless me.likes targetId,
                                   «matches» := pushUnless me.matches targetId }))
              targetId (fun _p =>
                { _p with likes := them.likes,
                          «matches» := pushUnless them.matches meId })) := by
            refine storeInv_setUser_pair _ meId targetId (fun hh => halias hh.symm)
              True _ _ (fun p => rfl) (fun p => rfl) ?_ ?_ hs1
            · intro p hp hpi x
              have hpm := sim_matches_eq s _ hsim1 h.1 meId me hme p hp hpi
              dsimp only
              rw [hpm.1, pushUnless_mem]
              tauto
            · intro p hp hpi x
              have hpm := sim_matches_eq s _ hsim1 h.1 targetId them hth p hp hpi
              dsimp only
              rw [hpm.1, pushUnless_mem]
              tauto
          by_cases hgate : (getAvailableSwipes s meId now).1.total = 0
          · rw [if_pos hgate]
            exact hsF
          · rw [if_neg hgate]
            exact storeInv_showCandidate 4 _ _ _ _ hsF
        · rw [if_neg hmf, if_neg hmf]
          have hsF : StoreInv (setUser (setUser (getAvailableSwipes s meId now).2 meId
              (fun _p => { _p with likes := pushUnless me.likes targetId,
                                   «matches» := me.matches }))
              targetId (fun _p =>
                { _p with likes := them.likes,
                          recentLikes :=
                            (them.recentLikes.filter (fun v => v != meId)) ++ [meId] })) := by
            refine storeInv_setUser_pair _ meId targetId (fun hh => halias hh.symm)
              False _ _ (fun p => rfl) (fun p => rfl) ?_ ?_ hs1
            · intro p hp hpi x
              have hpm := sim_matches_eq s _ hsim1 h.1 meId me hme p hp hpi
              dsimp only
              rw [hpm.1]
              tauto
            · intro p hp hpi x
              dsimp only
              tauto
          by_cases hgate : (getAvailableSwipes s meId now).1.total = 0
          · rw [if_pos hgate]
            exact hsF
          · rw [if_neg hgate]
            exact storeInv_showCandidate 4 _ _ _ _ hsF

theorem storeInv_purgeUser (s : List Profile) (x : Nat) (h : StoreInv s) :
    StoreInv (purgeUser s x) := by
  have hid : ∀ p : Profile,
      ((if p.id = x then p
        else { p with likes := p.likes.filter (fun v => v != x),
                      «matches» := p.matches.filter (fun v => v != x),
                      recentLikes := p.recentLikes.filter (fun v => v != x) }) : Profile).id
        = p.id := by
    intro p
    by_cases hpx : p.id = x
    · rw [if_pos hpx]
    · rw [if_neg hpx]
  constructor
  · unfold NodupIds purgeUser
    have hsub := List.filter_sublist (l := (s.map (fun p =>
      if p.id = x then p
      else { p with likes := p.likes.filter (fun v => v != x),
                    «matches» := p.matches.filter (fun v => v != x),
                    recentLikes := p.recentLikes.filter (fun v => v != x) })))
      (p := fun p => p.id != x)
    have hsubm := hsub.map Profile.id
    refine List.Nodup.sublist hsubm ?_
    exact nodupIds_map s _ hid h.1
  · intro p2 hp2 q2 hq2
    unfold purgeUser at hp2 hq2
    rw [List.mem_filter] at hp2 hq2
    obtain ⟨hp2m, hp2ne⟩ := hp2
    obtain ⟨hq2m, hq2ne⟩ := hq2
    rw [List.mem_map] at hp2m hq2m
    obtain ⟨p, hp, hpe⟩ := hp2m
    obtain ⟨q, hq, hqe⟩ := hq2m
    have hp2id : p2.id ≠ x := by simpa using hp2ne
    have hq2id : q2.id ≠ x := by simpa using hq2ne
    have hpx : ¬ p.id = x := by
      intro hh
      rw [if_pos hh] at hpe
      rw [hpe] at hh
      exact hp2id hh
    have hqx : ¬ q.id = x := by
      intro hh
      rw [if_pos hh] at hqe
      rw [hqe] at hh
      exact hq2id hh
    rw [if_neg hpx] at hpe
    rw [if_neg hqx] at hqe
    subst hpe
    subst hqe
    simp only [List.mem_filter]
    have hbq : (q.id != x) = true := by simpa using hq2id
    have hbp : (p.id != x) = true := by simpa using hp2id
    rw [h.2 p hp q hq]
    constructor
    · intro hh
      exact ⟨hh.1, hbp⟩
    · intro hh
      exact ⟨hh.1, hbq⟩

theorem storeInv_applyAct (s : List Profile) (a : Act) (h : StoreInv s) :
    StoreInv (applyAct s a) := by
  cases a with
  | like sess meId targetId now => exact storeInv_likeAction s sess meId targetId now h
  | message sess meId targetId now => exact storeInv_messageSendAction s sess meId targetId now h
  | deleteProfile meId =>
    show StoreInv (match findUser s meId with
      | none => s
      | some _val => purgeUser s meId)
    cases hme : findUser s meId with
    | none => exact h
    | some u => exact storeInv_purgeUser s meId h

theorem storeInv_applyActs (s : List Profile) (acts : List Act) (h : StoreInv s) :
    StoreInv (applyActs s acts) := by
  induction acts generalizing s with
  | nil => exact h
  | cons a rest ih => exact ih _ (storeInv_applyAct s a h)

/-- Claim C4: match symmetry is an invariant of the persisted store —
starting from a store with unique identifiers whose `matches` arrays are
symmetric, any sequence of like actions, message-send actions and
deletions leaves the `matches` arrays symmetric: B is in A's matches iff
A is in B's matches, for all stored profiles. -/
theorem match_symmetry_invariant (s : List Profile) (acts : List Act)
    (hN : NodupIds s) (hsym : MatchSym s) : MatchSym (applyActs s acts) :=
  (storeInv_applyActs s acts ⟨hN, hsym⟩).2

/-- Witness for C4: a like from 1 to 2, a message-send from 2 to 1
(creating the match both ways) and a deletion of user 2 keep the
concrete store symmetric. -/
theorem match_symmetry_invariant_witness :
    MatchSym (applyActs [profA, profB]
      [Act.like {} 1 2 0, Act.message {} 2 1 0, Act.deleteProfile 2]) :=
  match_symmetry_invariant [profA, profB] _
    (by unfold NodupIds; decide) (by unfold MatchSym; decide)

/-! ### Claim C5 -/

theorem buildQueue_fresh (s : List Profile) (meId : Nat) (me : Profile)
    (hme : findUser s meId = some me)
    (hne : strictFilter s meId me [] ≠ []) :
    buildCandidateQueue s meId [] true =
      (some (sortById (strictFilter s meId me [])), []) := by
  have h1 : (strictFilter s meId me []).isEmpty = false := isEmpty_false_of_ne_nil hne
  simp [buildCandidateQueue, hme, h1]

theorem refillA_id (s : List Profile) (meId : Nat) (sess : Session)
    (h : ((sess.queue.getD []).isEmpty) = false) : refillA s meId sess = sess := by
  unfold refillA
  rw [if_neg (by simp [h])]

theorem refillB_id (s : List Profile) (meId : Nat) (sess : Session)
    (h : ((sess.queue.getD []).isEmpty) = false) : refillB s meId sess = sess := by
  unfold refillB
  rw [if_neg (by simp [h])]

theorem popStep_pop (s : List Profile) (sess : Session) (meId : Nat)
    (t : Profile) (rest : List Profile)
    (hq : sess.queue = some (t :: rest)) (hv : validUser t = true)
    (hc : (sess.shown.contains t.id) = false) :
    popStep s sess meId = Sum.inl (Response.candidate t.id,
      { sess with queue := some rest, shown := sess.shown ++ [t.id] }) := by
  unfold popStep
  rw [if_neg (by simp [hq])]
  dsimp only
  rw [hq]
  dsimp only [Option.getD]
  rw [if_neg (by simp [hv])]
  rw [if_neg (by rw [hc]; simp)]

theorem showCandidate_pop (fuel : Nat) (s : List Profile) (sess : Session)
    (meId now : Nat) (me : Profile) (hme : findUser s meId = some me)
    (t0 : Nat) (hrs : me.lastSwipeReset = some t0)
    (hday : startOfDay t0 = startOfDay now) (hlim : me.dailySwipes < 20)
    (t : Profile) (rest : List Profile) (hq : sess.queue = some (t :: rest))
    (hv : validUser t = true) (hc : (sess.shown.contains t.id) = false) :
    showCandidate (fuel + 1) s sess meId now =
      (Response.candidate t.id, s,
        { sess with queue := some rest, shown := sess.shown ++ [t.id] }) := by
  have hgs := getAvailableSwipes_sameDay s meId now me hme t0 hrs hday
  have htot : ¬ ((20 - me.dailySwipes + me.purchasedSwipes) = 0) := by omega
  simp only [showCandidate, hme, hgs]
  rw [if_neg htot]
  rw [hq]
  rw [if_neg (by simp)]
  rw [popStep_pop s sess meId t rest hq hv hc]

theorem showNext_eq_of_refill (s : List Profile) (meId now : Nat) (me : Profile)
    (hme : findUser s meId = some me) (sess sess2 : Session)
    (h : refillA s meId
        (if sess.lastPreference != some (me.looking.getD "men") then
          { sess with shown := [], queue := none, lastPreference := some (me.looking.getD "men") }
         else sess) =
      refillA s meId
        (if sess2.lastPreference != some (me.looking.getD "men") then
          { sess2 with shown := [], queue := none, lastPreference := some (me.looking.getD "men") }
         else sess2)) :
    showNext s sess meId now = showNext s sess2 meId now := by
  simp only [showNext, hme]
  rw [h]

theorem refillA_cleared (s : List Profile) (meId : Nat) (me : Profile)
    (hme : findUser s meId = some me)
    (hne : strictFilter s meId me [] ≠ []) (sess : Session)
    (hsh : sess.shown = []) (hq : sess.queue = none) :
    refillA s meId sess =
      { sess with queue := some (sortById (strictFilter s meId me [])),
                  shown := [] } := by
  have hLne : sortById (strictFilter s meId me []) ≠ [] := by
    rw [ne_eq, sortById_eq_nil_iff]
    exact hne
  unfold refillA
  rw [if_pos (by rw [hq]; rfl)]
  rw [hsh, buildQueue_fresh s meId me hme hne]
  dsimp only
  rw [if_neg (by simp [isEmpty_false_of_ne_nil hLne])]

theorem showNext_inv_step (s : List Profile) (meId now : Nat) (me : Profile)
    (hme : findUser s meId = some me)
    (t0 : Nat) (hrs : me.lastSwipeReset = some t0)
    (hday : startOfDay t0 = startOfDay now)
    (hlim : me.dailySwipes < 20) (hpop2 : 1 < s.length)
    (hids : (((sortById (strictFilter s meId me [])).map Profile.id)).Nodup)
    (k : Nat) (t : Profile) (rest : List Profile)
    (hsplit : (sortById (strictFilter s meId me [])).drop k = t :: rest) :
    showNext s (loopSession (strictFilter s meId me []) (me.looking.getD "men") k)
        meId now =
      (Response.candidate t.id, s,
        loopSession (strictFilter s meId me []) (me.looking.getD "men") (k + 1)) := by
  set P := strictFilter s meId me [] with hP
  set L := sortById P with hL
  set ids := L.map Profile.id with hidsdef
  -- membership facts about the popped candidate
  have htm : t ∈ L := List.mem_of_mem_drop (hsplit ▸ List.mem_cons_self t rest)
  have htp : t ∈ P := (sortById_perm P).mem_iff.mp htm
  have hv : validUser t = true := by
    rw [hP] at htp
    simp only [strictFilter, List.mem_filter, Bool.and_eq_true] at htp
    exact htp.2.1.1.1
  -- index facts
  have hkl : k < L.length := by
    by_contra hcon
    push_neg at hcon
    rw [List.drop_eq_nil_of_le hcon] at hsplit
    exact List.noConfusion hsplit
  have hdropk := List.drop_eq_getElem_cons hkl
  rw [hsplit] at hdropk
  injection hdropk with h1 h2
  have hklids : k < ids.length := by
    rw [hidsdef, List.length_map]
    exact hkl
  have hidk : ids[k] = t.id := by
    simp only [hidsdef, List.getElem_map]
    exact congrArg Profile.id h1.symm
  have hshown : ids.take k ++ [t.id] = ids.take (k + 1) := by
    rw [← hidk, ← List.concat_eq_append]
    exact List.take_concat_get ids k hklids
  have hnotmem : t.id ∉ ids.take k := by
    intro hmem
    have hnd2 := hids
    rw [← List.take_append_drop k ids] at hnd2
    have hdisj := List.disjoint_of_nodup_append hnd2
    have hmem2 : t.id ∈ ids.drop k := by
      have hdk : ids.drop k = (t :: rest).map Profile.id := by
        rw [hidsdef, ← List.map_drop, hsplit]
      rw [hdk]
      exact List.mem_map.mpr ⟨t, List.mem_cons_self t rest, rfl⟩
    exact hdisj hmem hmem2
  have hcont : ((ids.take k).contains t.id) = false := by
    simp only [List.contains, List.elem_eq_mem, decide_eq_false_iff_not]
    exact hnotmem
  -- session projections
  have hq : (loopSession P (me.looking.getD "men") k).queue = some (t :: rest) := by
    simp only [loopSession]
    rw [← hL, hsplit]
  have hcont2 : (((loopSession P (me.looking.getD "men") k).shown.contains t.id)) = false := by
    simp only [loopSession]
    rw [← hL, ← hidsdef]
    exact hcont
  have hqne : (((loopSession P (me.looking.getD "men") k).queue.getD []).isEmpty) = false := by
    rw [hq]
    rfl
  -- the computation itself
  have hgs := getAvailableSwipes_sameDay s meId now me hme t0 hrs hday
  have htotne : ¬ ((20 - me.dailySwipes + me.purchasedSwipes) = 0) := by omega
  have hfin : showCandidate 4 s (loopSession P (me.looking.getD "men") k) meId now =
      (Response.candidate t.id, s,
        { loopSession P (me.looking.getD "men") k with
            queue := some rest,
            shown := (loopSession P (me.looking.getD "men") k).shown ++ [t.id] }) :=
    showCandidate_pop 3 s (loopSession P (me.looking.getD "men") k) meId now me hme
      t0 hrs hday hlim t rest hq hv hcont2
  have hsess : ({ loopSession P (me.looking.getD "men") k with
      queue := some rest,
      shown := (loopSession P (me.looking.getD "men") k).shown ++ [t.id] } : Session) =
      loopSession P (me.looking.getD "men") (k + 1) := by
    simp only [loopSession]
    rw [← hL, ← hidsdef, hshown, h2]
  simp only [showNext, hme, hgs]
  rw [if_neg (show ¬ (((loopSession P (me.looking.getD "men") k).lastPreference !=
      some (me.looking.getD "men")) = true) from by simp [loopSession])]
  rw [refillA_id s meId (loopSession P (me.looking.getD "men") k) hqne]
  rw [if_neg (show ¬ (s.length ≤ 1) from by omega)]
  rw [refillB_id s meId (loopSession P (me.looking.getD "men") k) hqne]
  rw [if_neg (show ¬ ((((loopSession P (me.looking.getD "men") k).queue.getD
      []).isEmpty) = true) from by rw [hqne]; simp)]
  rw [if_neg htotne]
  rw [hfin, hsess]

theorem presentLoop_inv (s : List Profile) (meId now : Nat) (me : Profile)
    (hme : findUser s meId = some me)
    (t0 : Nat) (hrs : me.lastSwipeReset = some t0)
    (hday : startOfDay t0 = startOfDay now)
    (hlim : me.dailySwipes < 20) (hpop2 : 1 < s.length)
    (hids : (((sortById (strictFilter s meId me [])).map Profile.id)).Nodup) :
    ∀ (j k : Nat), k + j ≤ (sortById (strictFilter s meId me [])).length →
    presentLoop j s (loopSession (strictFilter s meId me []) (me.looking.getD "men") k)
        meId now =
      (((((sortById (strictFilter s meId me [])).map Profile.id).drop k).take j).map
          Response.candidate,
       s, loopSession (strictFilter s meId me []) (me.looking.getD "men") (k + j)) := by
  intro j
  induction j with
  | zero =>
    intro k hk
    simp [presentLoop]
  | succ n ih =>
    intro k hk
    have hkl : k < (sortById (strictFilter s meId me [])).length := by omega
    have hsplit := List.drop_eq_getElem_cons hkl
    have hstep := showNext_inv_step s meId now me hme t0 hrs hday hlim hpop2 hids k
      (sortById (strictFilter s meId me []))[k]
      ((sortById (strictFilter s meId me [])).drop (k + 1)) hsplit
    have hklids : k < ((sortById (strictFilter s meId me [])).map Profile.id).length := by
      rw [List.length_map]
      exact hkl
    simp only [presentLoop]
    rw [hstep]
    dsimp only
    rw [ih (k + 1) (by omega)]
    rw [List.drop_eq_getElem_cons hklids, List.take_succ_cons, List.map_cons]
    rw [List.getElem_map]
    have harith : k + 1 + n = k + (n + 1) := by omega
    rw [harith]

theorem showNext_start (s : List Profile) (meId now : Nat) (me : Profile)
    (hme : findUser s meId = some me)
    (hne : strictFilter s meId me [] ≠ []) :
    showNext s {} meId now =
      showNext s (loopSession (strictFilter s meId me []) (me.looking.getD "men") 0)
        meId now := by
  have hLne : sortById (strictFilter s meId me []) ≠ [] := by
    rw [ne_eq, sortById_eq_nil_iff]
    exact hne
  have hqne0 : ((((loopSession (strictFilter s meId me [])
      (me.looking.getD "men") 0).queue.getD []).isEmpty)) = false := by
    simp only [loopSession]
    simp [isEmpty_false_of_ne_nil hLne]
  apply showNext_eq_of_refill s meId now me hme
  rw [if_pos (show ((({} : Session).lastPreference !=
      some (me.looking.getD "men")) = true) from rfl)]
  rw [if_neg (show ¬ (((loopSession (strictFilter s meId me [])
      (me.looking.getD "men") 0).lastPreference !=
      some (me.looking.getD "men")) = true) from by simp [loopSession])]
  rw [refillA_id s meId _ hqne0]
  rw [refillA_cleared s meId me hme hne _ rfl rfl]
  simp [loopSession]

/-- Claim C5: for a user with a profile facing a pool of more than one
eligible (valid, preference-compatible both ways) candidate, with the
daily limit not reached and the reset already on the current day,
repeatedly presenting candidates from a fresh session yields exactly the
pool's identifiers in ascending order — all `N` distinct identifiers,
each eligible candidate exactly once, before any identifier repeats. -/
theorem queue_exhaustion_progress (s : List Profile) (meId now : Nat) (me : Profile)
    (hme : findUser s meId = some me) (hnd : NodupIds s)
    (t0 : Nat) (hrs : me.lastSwipeReset = some t0)
    (hday : startOfDay t0 = startOfDay now)
    (hlim : me.dailySwipes < 20)
    (hN : 1 < (strictFilter s meId me []).length) :
    (presentLoop (strictFilter s meId me []).length s {} meId now).1 =
      ((sortById (strictFilter s meId me [])).map Profile.id).map Response.candidate ∧
    (((sortById (strictFilter s meId me [])).map Profile.id)).Nodup ∧
    List.Perm ((sortById (strictFilter s meId me [])).map Profile.id)
      ((strictFilter s meId me []).map Profile.id) := by
  have hperm := sortById_perm (strictFilter s meId me [])
  have hsub : List.Sublist (strictFilter s meId me []) s := by
    simp only [strictFilter]
    exact List.filter_sublist s
  have hids : (((sortById (strictFilter s meId me [])).map Profile.id)).Nodup := by
    have h3 : ((strictFilter s meId me []).map Profile.id).Nodup :=
      List.Nodup.sublist (hsub.map Profile.id) hnd
    exact ((hperm.map Profile.id).symm).nodup h3
  have hlenP : (strictFilter s meId me []).length ≤ s.length := hsub.length_le
  have hpop2 : 1 < s.length := by omega
  have hne : strictFilter s meId me [] ≠ [] := by
    intro h
    rw [h] at hN
    simp at hN
  have hlenL : (sortById (strictFilter s meId me [])).length =
      (strictFilter s meId me []).length := hperm.length_eq
  refine ⟨?_, hids, hperm.map Profile.id⟩
  obtain ⟨m, hm⟩ : ∃ m, (strictFilter s meId me []).length = m + 1 :=
    ⟨(strictFilter s meId me []).length - 1, by omega⟩
  have hstart := showNext_start s meId now me hme hne
  have hloop := presentLoop_inv s meId now me hme t0 hrs hday hlim hpop2 hids
    (strictFilter s meId me []).length 0 (by omega)
  have hcongr : presentLoop (strictFilter s meId me []).length s {} meId now =
      presentLoop (strictFilter s meId me []).length s
        (loopSession (strictFilter s meId me []) (me.looking.getD "men") 0) meId now := by
    rw [hm]
    simp only [presentLoop]
    rw [hstart]
  rw [hcongr, hloop]
  dsimp only
  rw [List.drop_zero]
  have hlid : ((sortById (strictFilter s meId me [])).map Profile.id).length =
      (strictFilter s meId me []).length := by
    rw [List.length_map]
    exact hlenL
  rw [← hlid, List.take_length]

/-- Witness for C5: user 1 faces the pool {2, 3, 4}; three presentations
from a fresh session produce the candidates 2, 3, 4 — each exactly once,
in ascending identifier order, with no repeats. -/
theorem queue_exhaustion_progress_witness :
    (presentLoop (strictFilter [profA, profB, profC, profD] 1 profA []).length
        [profA, profB, profC, profD] {} 1 0).1 =
      ((sortById (strictFilter [profA, profB, profC, profD] 1 profA [])).map
        Profile.id).map Response.candidate ∧
    (((sortById (strictFilter [profA, profB, profC, profD] 1 profA [])).map
        Profile.id)).Nodup ∧
    List.Perm ((sortById (strictFilter [profA, profB, profC, profD] 1 profA [])).map
        Profile.id)
      ((strictFilter [profA, profB, profC, profD] 1 profA []).map Profile.id) :=
  queue_exhaustion_progress [profA, profB, profC, profD] 1 0 profA rfl
    (by unfold NodupIds; decide) 0 rfl rfl (by decide) (by decide)

end MatchBot
